import Mathlib

/-!
# SignerPanel: a shallow embedding of `src/components/SignerPanel/SignerPanel.js`

The React component is embedded as an explicit machine.

* `PanelState` is `this.state`; `Props` holds the two props the methods read
  (`apps`, `transactionBag`); `Machine.closeTimer` is `this._closeTimer`.
* Every method of the class is a function with the same name, on `PanelState`
  when it only calls `setState` (`handleSignerClose`,
  `handleSignerTransitionEnd`, `stateFromTransactionBag`) and on `Machine`
  otherwise. `setState` runs `componentDidUpdate` with the previous state.
* Calls made to collaborators (signing provider, activity ledger, caller result
  handle, timers) are appended to `Machine.effects` in call order.
* Each `new Promise` created by `signTransaction` is an entry of
  `Machine.submissions`. The provider events `transactionHash`, `receipt` and
  `error` are addressed to an entry by its index. A promise settles once
  (`Submission.settled`); the continuation of the `async` function `handleSign`
  runs when the awaited promise settles, right after the handler that settled
  it, as microtasks do.
* `setTimeout` and `clearTimeout` act on the list `Machine.timers` of pending
  timers (identifier, deadline) and `Event.elapse` lets time pass, firing the
  timers that are due.
* Addresses, hashes and names are strings. A `description` is an
  `Option String`, `none` standing for `undefined`: the source reads it from the
  last node or from the transaction without a default, and
  `getPretransactionDescription` throws on it. An object whose identity is
  compared (`transactionBag !== this.props.transactionBag`) carries a field
  `ref` that stands for its identity.

Two functions that the file uses without defining them are parameters of the
embedding, gathered in `Host`: `addressesEqual`, imported from
`../../web3-utils`, and `String.prototype.toLowerCase`.
-/

namespace SignerPanel

/-- Modelled from the spec: the four constants imported from `./signer-statuses`
(the module is not part of the source file); the spec lists them as the enum
`CONFIRMING, SIGNING, SIGNED, ERROR` of pairwise distinct values. -/
inductive Status where
  | STATUS_CONFIRMING
  | STATUS_SIGNING
  | STATUS_SIGNED
  | STATUS_ERROR
deriving DecidableEq, Repr

/-- JavaScript values, as far as `===` against a string constant can tell them apart. -/
inductive JsValue where
  | undefined
  | null
  | boolean (b : Bool)
  | number (n : Int)
  | string (s : String)
deriving DecidableEq, Repr

/-- The nested `pretransaction` object of a transaction. The fields `from` and
`to` of the source are `from_` and `to_` here, the plain words being reserved. -/
structure Pretransaction where
  from_ : String
  to_ : String
  data : String
  value : String
deriving DecidableEq, Repr

/-- A transaction object as read by the panel. -/
structure Transaction where
  from_ : String
  to_ : String
  data : String
  value : String
  description : Option String
  annotatedDescription : Option String
  pretransaction : Option Pretransaction
deriving DecidableEq, Repr

/-- A node of a transaction path; the four fields are those read from `lastNode`. -/
structure Node where
  to_ : String
  name : String
  description : Option String
  annotatedDescription : Option String
deriving DecidableEq, Repr

/-- An entry of the `apps` prop. -/
structure App where
  name : String
  proxyAddress : String
deriving DecidableEq, Repr

/-- The object returned by `transactionIntent`. -/
structure Intent where
  annotatedDescription : Option String
  description : Option String
  name : String
  to_ : String
  transaction : Transaction
deriving DecidableEq, Repr

/-- The `intent` field of the state: `{}` in `INITIAL_STATE`, `undefined` when
`transaction && ...` short-circuits on a missing transaction, an intent otherwise. -/
inductive IntentSlot where
  | empty
  | undefined
  | resolved (intent : Intent)
deriving DecidableEq, Repr

/-- The `transactionBag` prop. `ref` stands for the identity of the JavaScript
object: `!==` on two bags compares `ref`. `resolve` and `reject` of the bag are
recorded as effects carrying `ref`. -/
structure TransactionBag where
  ref : Nat
  path : List Node
  transaction : Option Transaction
deriving DecidableEq, Repr

/-- The props read by the methods of the class. -/
structure Props where
  apps : List App
  transactionBag : Option TransactionBag
deriving DecidableEq, Repr

/-- The error object passed to the `error` handler (`err.transactionHash` may be absent). -/
structure ProviderError where
  message : String
  transactionHash : Option String
deriving DecidableEq, Repr

/-- The receipt object passed to the `receipt` handler. -/
structure Receipt where
  status : JsValue
  transactionHash : String
deriving DecidableEq, Repr

/-- The argument of `addTransactionActivity`. -/
structure ActivityRecord where
  transactionHash : String
  from_ : String
  targetApp : String
  targetAppProxyAddress : String
  forwarderProxyAddress : String
  description : Option String
deriving DecidableEq, Repr

/-- The component state (`this.state`). -/
structure PanelState where
  panelOpened : Bool
  intent : IntentSlot
  directPath : Bool
  actionPaths : List (List Node)
  pretransaction : Option Pretransaction
  status : Status
  signError : Option ProviderError
deriving DecidableEq, Repr

/-- The object handed to `walletWeb3.eth.sendTransaction`. -/
inductive Submitted where
  | transaction (t : Transaction)
  | pretransaction (p : Pretransaction)
deriving DecidableEq, Repr

/-- The `to` field of the submitted object. -/
def Submitted.to_ : Submitted → String
  | .transaction t => t.to_
  | .pretransaction p => p.to_

/-- Calls to collaborators, in the order they are made. -/
inductive Effect where
  | sendTransaction (tx : Submitted)
  | getTransaction (transactionHash : String)
  | setActivityNonce (transactionHash : String) (nonce : Nat)
  | consoleError
  | addTransactionActivity (record : ActivityRecord)
  | setActivityConfirmed (transactionHash : String)
  | setActivityFailed (transactionHash : String)
  | resolve (bag : Nat) (transactionHash : String)
  | reject (bag : Nat) (err : Option ProviderError)
  | setTimeout (id : Nat) (delay : Nat)
  | clearTimeout (id : Option Nat)
deriving DecidableEq, Repr

/-- One promise created by `signTransaction`, with what its handlers and the
awaiting `handleSign` closure captured. -/
structure Submission where
  transactionBag : Option TransactionBag
  transaction : Transaction
  intent : Intent
  isPretransaction : Bool
  settled : Bool
deriving DecidableEq, Repr

/-- The component instance together with its environment. -/
structure Machine where
  props : Props
  state : PanelState
  closeTimer : Option Nat
  timers : List (Nat × Nat)
  timerSeq : Nat
  now : Nat
  submissions : List Submission
  effects : List Effect
deriving DecidableEq, Repr

/-- The constant `INITIAL_STATE`. -/
def INITIAL_STATE : PanelState :=
  { panelOpened := false
    intent := .empty
    directPath := false
    actionPaths := []
    pretransaction := none
    status := .STATUS_CONFIRMING
    signError := none }

/-- The constant `RECIEPT_ERROR_STATUS` (spelt as in the source). -/
def RECIEPT_ERROR_STATUS : String := "0x0"

/-- The delay passed to `setTimeout` in `startClosing`. -/
def CLOSE_DELAY : Nat := 3000

/-- The functions of the environment that the file calls: `addressesEqual` of
`../../web3-utils` and the `toLowerCase` method of JavaScript strings. -/
structure Host where
  addressesEqual : String → String → Bool
  toLowerCase : String → String

/-- The expression `s.slice(0, 1).toLowerCase() + s.slice(1)`. `slice` counts
UTF-16 units: for a first character of the basic plane `s.slice(0, 1)` is that
character; for a first character outside it `s.slice(0, 1)` is its lone high
surrogate, which `toLowerCase` leaves as it is, so that the expression gives `s`
back. -/
def lowerFirst (toLowerCase : String → String) (s : String) : String :=
  match s.data with
  | [] => toLowerCase ""
  | c :: cs =>
    if c.toNat < 65536 then toLowerCase (String.singleton c) ++ String.mk cs else s

/-- The function `getPretransactionDescription`; `none` is the `TypeError` thrown
by `intent.description.slice` when `intent.description` is undefined. -/
def getPretransactionDescription (toLowerCase : String → String) (intent : Intent) :
    Option String :=
  match intent.description with
  | some description =>
    some ("Allow " ++ intent.name ++ " to " ++ lowerFirst toLowerCase description)
  | none => none

/-- The method `transactionIntent`. The default `transaction = {}` of the source
is not embedded: the only caller, `stateFromTransactionBag`, calls the method
behind `transaction &&`. -/
def transactionIntent (addressesEqual : String → String → Bool) (apps : List App)
    (path : List Node) (transaction : Transaction) : Intent :=
  if h : path.length > 1 then
    have inBounds : path.length - 1 < path.length := by omega
    let lastNode := path[path.length - 1]
    { annotatedDescription := lastNode.annotatedDescription
      description := lastNode.description
      name := lastNode.name
      to_ := lastNode.to_
      transaction := transaction }
  else
    let toApp := apps.find? (fun app => addressesEqual app.proxyAddress transaction.to_)
    let name := match toApp with
      | some app => app.name
      | none => ""
    { annotatedDescription := transaction.annotatedDescription
      description := transaction.description
      name := name
      to_ := transaction.to_
      transaction := transaction }

/-- The method `stateFromTransactionBag`, applied to a state. -/
def stateFromTransactionBag (addressesEqual : String → String → Bool) (apps : List App)
    (bag : TransactionBag) (s : PanelState) : PanelState :=
  { s with
    intent := match bag.transaction with
      | some transaction => .resolved (transactionIntent addressesEqual apps bag.path transaction)
      | none => .undefined
    directPath := decide (bag.path.length = 1)
    actionPaths := if bag.path.length ≠ 0 then [bag.path] else []
    pretransaction := match bag.transaction with
      | some transaction => transaction.pretransaction
      | none => none }

/-- `clearTimeout(handle)`. -/
def clearTimeout (handle : Option Nat) (m : Machine) : Machine :=
  { m with
    timers := m.timers.filter (fun t => decide (some t.1 ≠ handle))
    effects := m.effects ++ [.clearTimeout handle] }

/-- The method `componentDidUpdate`, run after the state went from `prevState`
to the current one. -/
def componentDidUpdate (prevState : PanelState) (m : Machine) : Machine :=
  if prevState.status ≠ m.state.status ∧ m.state.status ≠ .STATUS_SIGNED then
    clearTimeout m.closeTimer m
  else m

/-- `this.setState(update)` followed by the update hook. -/
def setState (update : PanelState → PanelState) (m : Machine) : Machine :=
  componentDidUpdate m.state { m with state := update m.state }

/-- The method `componentWillReceiveProps`; `this.props` becomes `next` afterwards.
The intent is computed with the apps of the current props, as in the source. -/
def componentWillReceiveProps (addressesEqual : String → String → Bool) (next : Props)
    (m : Machine) : Machine :=
  let updated : Machine :=
    match next.transactionBag with
    | some bag =>
      if (match m.props.transactionBag with
          | some current => decide (bag.ref ≠ current.ref)
          | none => true) then
        setState (fun _ => stateFromTransactionBag addressesEqual m.props.apps bag
          { INITIAL_STATE with panelOpened := true, status := .STATUS_CONFIRMING }) m
      else m
    | none => m
  { updated with props := next }

/-- The object passed to `addTransactionActivity` in the `transactionHash`
handler of `signTransaction`, once `description` is computed. -/
def transactionActivity (intent : Intent) (transactionHash : String)
    (description : Option String) : ActivityRecord :=
  let hasForwarder := decide (intent.to_ ≠ intent.transaction.to_)
  { transactionHash := transactionHash
    from_ := intent.transaction.from_
    targetApp := intent.name
    targetAppProxyAddress := intent.to_
    forwarderProxyAddress := if hasForwarder then intent.transaction.to_ else ""
    description := description }

/-- The record that the `transactionHash` handler adds: the description is
`getPretransactionDescription(intent)` for a pretransaction and
`intent.description` otherwise; `none` when computing the description throws, in
which case `addTransactionActivity` is not reached. -/
def activityRecord (toLowerCase : String → String) (intent : Intent)
    (isPretransaction : Bool) (transactionHash : String) : Option ActivityRecord :=
  if isPretransaction then
    match getPretransactionDescription toLowerCase intent with
    | some description => some (transactionActivity intent transactionHash (some description))
    | none => none
  else
    some (transactionActivity intent transactionHash intent.description)

/-- The calls of the `transactionHash` handler of `signTransaction` after
`resolve(transactionHash)`: the nonce lookup, then `addTransactionActivity`
unless the description threw. -/
def transactionHashHandler (toLowerCase : String → String) (intent : Intent)
    (isPretransaction : Bool) (transactionHash : String) : List Effect :=
  .getTransaction transactionHash ::
    match activityRecord toLowerCase intent isPretransaction transactionHash with
    | some record => [.addTransactionActivity record]
    | none => []

/-- The ledger call of the `receipt` handler of `signTransaction`. -/
def receiptHandler (receipt : Receipt) : List Effect :=
  if receipt.status = .string RECIEPT_ERROR_STATUS then
    [.setActivityFailed receipt.transactionHash]
  else
    [.setActivityConfirmed receipt.transactionHash]

/-- The ledger call of the `error` handler:
`err && err.transactionHash && setActivityFailed(err.transactionHash)`. -/
def errorHandler (err : Option ProviderError) : List Effect :=
  match err with
  | some e =>
    match e.transactionHash with
    | some h => if h ≠ "" then [.setActivityFailed h] else []
    | none => []
  | none => []

/-- The method `startClosing`. -/
def startClosing (m : Machine) : Machine :=
  { m with
    timers := m.timers ++ [(m.timerSeq, m.now + CLOSE_DELAY)]
    closeTimer := some m.timerSeq
    timerSeq := m.timerSeq + 1
    effects := m.effects ++ [.setTimeout m.timerSeq CLOSE_DELAY] }

/-- The method `handleSignerClose`, on the state. -/
def handleSignerClose (s : PanelState) : PanelState :=
  { s with panelOpened := false }

/-- The method `handleSignerTransitionEnd`, on the state. -/
def handleSignerTransitionEnd (opened : Bool) (s : PanelState) : PanelState :=
  if !opened then INITIAL_STATE else s

/-- The method `signTransaction`: a new promise whose executor hands
`submitted` to `walletWeb3.eth.sendTransaction`; `pending` records what the
three handlers and the awaiting caller captured. -/
def signTransaction (submitted : Submitted) (pending : Submission) (m : Machine) : Machine :=
  { m with
    submissions := m.submissions ++ [pending]
    effects := m.effects ++ [.sendTransaction submitted] }

/-- The synchronous part of `handleSign`: the bag is read from the props, the
first `signTransaction` call (for the pretransaction if there is one, for the
transaction otherwise) reaches `sendTransaction`, and the batched
`setState({ status: STATUS_SIGNING })` is applied when the handler yields. -/
def handleSign (transaction : Transaction) (intent : Intent)
    (pretransaction : Option Pretransaction) (m : Machine) : Machine :=
  let first : Submitted := match pretransaction with
    | some p => .pretransaction p
    | none => .transaction transaction
  let pending : Submission :=
    { transactionBag := m.props.transactionBag
      transaction := transaction
      intent := intent
      isPretransaction := pretransaction.isSome
      settled := false }
  componentDidUpdate m.state
    (signTransaction first pending
      { m with state := { m.state with status := .STATUS_SIGNING } })

/-- The `transactionHash` event of submission `k`: the handler of
`signTransaction`, then, if this settles the promise, the continuation of
`handleSign` (the main `signTransaction` call after a pretransaction; `resolve`,
`setState` and `startClosing` after the main transaction). The promise is
resolved before the handler can throw, so the continuation runs in any case.
Without a bag in the
props at call time `transactionBag.resolve` and `transactionBag.reject` both
throw and nothing else happens. -/
def onTransactionHash (toLowerCase : String → String) (k : Nat) (transactionHash : String)
    (m : Machine) : Machine :=
  match m.submissions[k]? with
  | none => m
  | some sub =>
    let handled : Machine :=
      { m with
        submissions := m.submissions.set k { sub with settled := true }
        effects := m.effects ++
          transactionHashHandler toLowerCase sub.intent sub.isPretransaction transactionHash }
    if sub.settled then handled
    else if sub.isPretransaction then
      signTransaction (.transaction sub.transaction)
        { sub with isPretransaction := false, settled := false } handled
    else
      match sub.transactionBag with
      | none => handled
      | some bag =>
        startClosing
          (setState (fun s => { s with signError := none, status := .STATUS_SIGNED })
            { handled with effects := handled.effects ++ [.resolve bag.ref transactionHash] })

/-- The `receipt` event of submission `k`. -/
def onReceipt (k : Nat) (receipt : Receipt) (m : Machine) : Machine :=
  match m.submissions[k]? with
  | none => m
  | some _ => { m with effects := m.effects ++ receiptHandler receipt }

/-- The `error` event of submission `k`: the handler of `signTransaction`, then,
if this settles the promise, the `catch` block of `handleSign`. -/
def onError (k : Nat) (err : Option ProviderError) (m : Machine) : Machine :=
  match m.submissions[k]? with
  | none => m
  | some sub =>
    let handled : Machine :=
      { m with
        submissions := m.submissions.set k { sub with settled := true }
        effects := m.effects ++ errorHandler err }
    if sub.settled then handled
    else
      match sub.transactionBag with
      | none => handled
      | some bag =>
        setState (fun s => { s with signError := err, status := .STATUS_ERROR })
          { handled with effects := handled.effects ++ [.reject bag.ref err] }

/-- The outcome of a `web3.eth.getTransaction(hash)` lookup:
`.then(({ nonce }) => setActivityNonce(...)).catch(console.error)`. -/
def onTransactionLookup (transactionHash : String) (nonce : Option Nat) (m : Machine) : Machine :=
  match nonce with
  | some n => { m with effects := m.effects ++ [.setActivityNonce transactionHash n] }
  | none => { m with effects := m.effects ++ [.consoleError] }

/-- The callback given to `setTimeout` in `startClosing`. -/
def closeTimerCallback (m : Machine) : Machine :=
  if m.state.status = .STATUS_SIGNED then setState handleSignerClose m else m

/-- Time passes by `ms`: every pending timer whose deadline is reached fires, in
scheduling order. -/
def elapse (ms : Nat) (m : Machine) : Machine :=
  let due := m.timers.filter (fun t => decide (t.2 ≤ m.now + ms))
  due.foldl (fun acc _ => closeTimerCallback acc)
    { m with
      now := m.now + ms
      timers := m.timers.filter (fun t => decide (¬ t.2 ≤ m.now + ms)) }

/-- What can happen to a mounted panel. -/
inductive Event where
  | receiveProps (next : Props)
  | sign (transaction : Transaction) (intent : Intent) (pretransaction : Option Pretransaction)
  | transactionHash (k : Nat) (transactionHash : String)
  | receipt (k : Nat) (receipt : Receipt)
  | error (k : Nat) (err : Option ProviderError)
  | transactionLookup (transactionHash : String) (nonce : Option Nat)
  | close
  | transitionEnd (opened : Bool)
  | elapse (ms : Nat)
deriving DecidableEq, Repr

/-- One event handled by the panel. -/
def step (host : Host) (m : Machine) : Event → Machine
  | .receiveProps next => componentWillReceiveProps host.addressesEqual next m
  | .sign transaction intent pretransaction => handleSign transaction intent pretransaction m
  | .transactionHash k h => onTransactionHash host.toLowerCase k h m
  | .receipt k receipt => onReceipt k receipt m
  | .error k err => onError k err m
  | .transactionLookup h nonce => onTransactionLookup h nonce m
  | .close => setState handleSignerClose m
  | .transitionEnd opened => setState (handleSignerTransitionEnd opened) m
  | .elapse ms => elapse ms m

/-- A sequence of events, handled in order. -/
def run (host : Host) (m : Machine) (events : List Event) : Machine :=
  events.foldl (step host) m

/-- The freshly mounted component: `state = { ...INITIAL_STATE }`, no timer handle. -/
def mount (props : Props) : Machine :=
  { props := props
    state := INITIAL_STATE
    closeTimer := none
    timers := []
    timerSeq := 0
    now := 0
    submissions := []
    effects := [] }

/-! ## Observations on the effect log and on traces -/

/-- The argument of an `addTransactionActivity` call. -/
def Effect.activity? : Effect → Option ActivityRecord
  | .addTransactionActivity record => some record
  | _ => none

/-- The argument of a `sendTransaction` call. -/
def Effect.sent? : Effect → Option Submitted
  | .sendTransaction tx => some tx
  | _ => none

/-- The bag and error of a `reject` call. -/
def Effect.rejection? : Effect → Option (Nat × Option ProviderError)
  | .reject bag err => some (bag, err)
  | _ => none

/-- Whether the effect is `resolve` or `reject` on the bag with identity `bag`. -/
def Effect.settles (bag : Nat) : Effect → Bool
  | .resolve b _ => decide (b = bag)
  | .reject b _ => decide (b = bag)
  | _ => false

/-- Whether the effect is a `resolve` or `reject` call on some bag. -/
def Effect.isSettlement : Effect → Bool
  | .resolve _ _ => true
  | .reject _ _ => true
  | _ => false

/-- The records passed to `addTransactionActivity`, in call order. -/
def activityRecords (effects : List Effect) : List ActivityRecord :=
  effects.filterMap Effect.activity?

/-- The objects passed to `sendTransaction`, in call order. -/
def sentTransactions (effects : List Effect) : List Submitted :=
  effects.filterMap Effect.sent?

/-- The `resolve` and `reject` calls, in call order. -/
def settlements (effects : List Effect) : List Effect :=
  effects.filter Effect.isSettlement

/-- The most recent `reject` call. -/
def lastRejection (effects : List Effect) : Option (Nat × Option ProviderError) :=
  ((settlements effects).filterMap Effect.rejection?).getLast?

/-- How many times the handle of the bag `bag` was settled. -/
def settleCount (bag : Nat) (effects : List Effect) : Nat :=
  (settlements effects).countP (Effect.settles bag)

/-- Whether the submission is an unsettled promise of a run started for `bag`. -/
def Submission.awaits (bag : Nat) (sub : Submission) : Bool :=
  !sub.settled && (match sub.transactionBag with
    | some b => decide (b.ref = bag)
    | none => false)

/-- How many `handleSign` runs started for `bag` still wait for the provider. -/
def openRuns (bag : Nat) (submissions : List Submission) : Nat :=
  submissions.countP (Submission.awaits bag)

/-- Whether the props currently hold the bag with identity `bag`. -/
def showsBag (bag : Nat) (m : Machine) : Bool :=
  match m.props.transactionBag with
  | some b => decide (b.ref = bag)
  | none => false

/-- How many `handleSign` calls of the trace are made while the props hold `bag`. -/
def signCount (host : Host) (bag : Nat) :
    Machine → List Event → Nat
  | _, [] => 0
  | m, e :: rest =>
    (match e with
      | .sign _ _ _ => if showsBag bag m then 1 else 0
      | _ => 0) + signCount host bag (step host m e) rest

/-- The provider events that hash every submission of the run whose first
submission has index `k`: the pretransaction (if there is one) with `preHash`,
then the main transaction with `transactionHash`. -/
def hashedEvents (k : Nat) (pretransaction : Option Pretransaction)
    (preHash transactionHash : String) : List Event :=
  match pretransaction with
  | some _ => [.transactionHash k preHash, .transactionHash (k + 1) transactionHash]
  | none => [.transactionHash k transactionHash]

/-- The index of the main submission of the run whose first submission has index `k`. -/
def mainIndex (k : Nat) (pretransaction : Option Pretransaction) : Nat :=
  match pretransaction with
  | some _ => k + 1
  | none => k

/-- The event calls neither `handleSign` nor a `transactionHash` handler. -/
def Event.submitsNothing : Event → Bool
  | .sign _ _ _ => false
  | .transactionHash _ _ => false
  | _ => true

/-- While the panel is open the intent slot is not the `{}` of `INITIAL_STATE`. -/
def OpenedWithIntent (m : Machine) : Prop :=
  m.state.panelOpened = true → m.state.intent ≠ .empty

/-! ## Sample inputs -/

/-- Address comparison by string equality, one possible `addressesEqual`. -/
def sameAddress (a b : String) : Bool := decide (a = b)

/-- Lower case of the letters `A` to `Z`, what `toLowerCase` does on ASCII strings. -/
def asciiLowerCase (s : String) : String :=
  String.mk (s.data.map Char.toLower)

/-- The environment of the sample runs. -/
def sampleHost : Host :=
  { addressesEqual := sameAddress, toLowerCase := asciiLowerCase }

/-- A registry of two apps. -/
def sampleApps : List App :=
  [{ name := "Voting", proxyAddress := "0xaa" }, { name := "Finance", proxyAddress := "0xbb" }]

/-- A token approval required before the payment. -/
def samplePretransaction : Pretransaction :=
  { from_ := "0x01", to_ := "0xcc", data := "0x095e", value := "0" }

/-- A direct transaction to the Finance app, with a pretransaction. -/
def sampleTransaction : Transaction :=
  { from_ := "0x01", to_ := "0xbb", data := "0x", value := "0"
    description := some "Create a payment", annotatedDescription := none
    pretransaction := some samplePretransaction }

/-- The one-node path of the direct transaction. -/
def samplePath : List Node :=
  [{ to_ := "0xbb", name := "Finance", description := some "Create a payment"
     annotatedDescription := none }]

/-- Requests for the sample payment, one object per `ref`. -/
def sampleBag (ref : Nat) : TransactionBag :=
  { ref := ref, path := samplePath, transaction := some sampleTransaction }

/-- The props carrying the request `ref`. -/
def sampleProps (ref : Nat) : Props :=
  { apps := sampleApps, transactionBag := some (sampleBag ref) }

/-- The intent of the sample request. -/
def sampleIntent : Intent :=
  transactionIntent sameAddress sampleApps samplePath sampleTransaction

/-- A panel mounted without a request, then given the first sample request. -/
def sampleShown : Machine :=
  step sampleHost (mount { apps := sampleApps, transactionBag := none })
    (.receiveProps (sampleProps 1))

/-- The same payment without a pretransaction. -/
def plainTransaction : Transaction :=
  { sampleTransaction with pretransaction := none }

/-- Requests for the payment without a pretransaction, distinct objects. -/
def plainBag (ref : Nat) : TransactionBag :=
  { ref := ref, path := samplePath, transaction := some plainTransaction }

/-- The props carrying the request `ref` without a pretransaction. -/
def plainProps (ref : Nat) : Props :=
  { apps := sampleApps, transactionBag := some (plainBag ref) }

/-- The intent of the request without a pretransaction. -/
def plainIntent : Intent :=
  transactionIntent sameAddress sampleApps samplePath plainTransaction

/-- A panel mounted without a request, then given the first request without a
pretransaction. -/
def plainShown : Machine :=
  step sampleHost (mount { apps := sampleApps, transactionBag := none })
    (.receiveProps (plainProps 1))

/-- A wallet rejection before any hash. -/
def sampleError : ProviderError :=
  { message := "User denied transaction signature", transactionHash := none }

/-- A receipt of a reverted transaction. -/
def sampleRevert : Receipt :=
  { status := .string "0x0", transactionHash := "0xh1" }

/-- Two overlapping runs: the second request arrives while the first is being
signed and is confirmed too; the first run is hashed at time 0 (timer 0, due at
3000), the second at time 1000 (timer 1, due at 4000); the time is then 1500. -/
def overlappingRuns : List Event :=
  [.receiveProps (plainProps 1), .sign plainTransaction plainIntent none,
   .receiveProps (plainProps 2), .sign plainTransaction plainIntent none,
   .transactionHash 0 "0xa", .elapse 1000, .transactionHash 1 "0xb", .elapse 500]

/-- A third request arrives at time 1500, is confirmed and hashed at once
(timer 2, due at 4500). -/
def thirdRequest : List Event :=
  [.receiveProps (plainProps 3), .sign plainTransaction plainIntent none,
   .transactionHash 2 "0xc"]

/-! ## The effect log -/

@[simp]
theorem activityRecords_append (a b : List Effect) :
    activityRecords (a ++ b) = activityRecords a ++ activityRecords b := by
  simp [activityRecords]

@[simp]
theorem sentTransactions_append (a b : List Effect) :
    sentTransactions (a ++ b) = sentTransactions a ++ sentTransactions b := by
  simp [sentTransactions]

@[simp]
theorem settlements_append (a b : List Effect) :
    settlements (a ++ b) = settlements a ++ settlements b := by
  simp [settlements]

/-! ## The update hook -/

@[simp]
theorem componentDidUpdate_state (p : PanelState) (m : Machine) :
    (componentDidUpdate p m).state = m.state := by
  unfold componentDidUpdate clearTimeout; split <;> rfl

@[simp]
theorem componentDidUpdate_props (p : PanelState) (m : Machine) :
    (componentDidUpdate p m).props = m.props := by
  unfold componentDidUpdate clearTimeout; split <;> rfl

@[simp]
theorem componentDidUpdate_submissions (p : PanelState) (m : Machine) :
    (componentDidUpdate p m).submissions = m.submissions := by
  unfold componentDidUpdate clearTimeout; split <;> rfl

@[simp]
theorem componentDidUpdate_now (p : PanelState) (m : Machine) :
    (componentDidUpdate p m).now = m.now := by
  unfold componentDidUpdate clearTimeout; split <;> rfl

@[simp]
theorem componentDidUpdate_timerSeq (p : PanelState) (m : Machine) :
    (componentDidUpdate p m).timerSeq = m.timerSeq := by
  unfold componentDidUpdate clearTimeout; split <;> rfl

@[simp]
theorem componentDidUpdate_closeTimer (p : PanelState) (m : Machine) :
    (componentDidUpdate p m).closeTimer = m.closeTimer := by
  unfold componentDidUpdate clearTimeout; split <;> rfl

theorem componentDidUpdate_effects (p : PanelState) (m : Machine) :
    (componentDidUpdate p m).effects = m.effects ∨
      (componentDidUpdate p m).effects = m.effects ++ [.clearTimeout m.closeTimer] := by
  unfold componentDidUpdate clearTimeout; split
  · exact Or.inr rfl
  · exact Or.inl rfl

@[simp]
theorem activityRecords_componentDidUpdate (p : PanelState) (m : Machine) :
    activityRecords (componentDidUpdate p m).effects = activityRecords m.effects := by
  rcases componentDidUpdate_effects p m with h | h <;> rw [h]
  simp [activityRecords, Effect.activity?]

@[simp]
theorem sentTransactions_componentDidUpdate (p : PanelState) (m : Machine) :
    sentTransactions (componentDidUpdate p m).effects = sentTransactions m.effects := by
  rcases componentDidUpdate_effects p m with h | h <;> rw [h]
  simp [sentTransactions, Effect.sent?]

@[simp]
theorem settlements_componentDidUpdate (p : PanelState) (m : Machine) :
    settlements (componentDidUpdate p m).effects = settlements m.effects := by
  rcases componentDidUpdate_effects p m with h | h <;> rw [h]
  simp [settlements, Effect.isSettlement]

@[simp]
theorem setState_state (update : PanelState → PanelState) (m : Machine) :
    (setState update m).state = update m.state := by
  simp [setState]

@[simp]
theorem setState_props (update : PanelState → PanelState) (m : Machine) :
    (setState update m).props = m.props := by
  simp [setState]

@[simp]
theorem setState_submissions (update : PanelState → PanelState) (m : Machine) :
    (setState update m).submissions = m.submissions := by
  simp [setState]

@[simp]
theorem activityRecords_setState (update : PanelState → PanelState) (m : Machine) :
    activityRecords (setState update m).effects = activityRecords m.effects := by
  simp [setState]

@[simp]
theorem sentTransactions_setState (update : PanelState → PanelState) (m : Machine) :
    sentTransactions (setState update m).effects = sentTransactions m.effects := by
  simp [setState]

@[simp]
theorem settlements_setState (update : PanelState → PanelState) (m : Machine) :
    settlements (setState update m).effects = settlements m.effects := by
  simp [setState]

theorem setState_same_status (update : PanelState → PanelState) (m : Machine)
    (h : (update m.state).status = m.state.status) :
    setState update m = { m with state := update m.state } := by
  simp [setState, componentDidUpdate, h]

/-! ## The handlers, case by case -/

theorem activityRecord_main (toLowerCase : String → String) (intent : Intent) (h : String) :
    activityRecord toLowerCase intent false h =
      some (transactionActivity intent h intent.description) := by
  simp [activityRecord]

theorem activityRecord_pretransaction (toLowerCase : String → String) (intent : Intent)
    (h description : String) (hd : intent.description = some description) :
    activityRecord toLowerCase intent true h =
      some (transactionActivity intent h
        (some ("Allow " ++ intent.name ++ " to " ++ lowerFirst toLowerCase description))) := by
  simp [activityRecord, getPretransactionDescription, hd]

theorem activityRecord_throws (toLowerCase : String → String) (intent : Intent) (h : String)
    (hd : intent.description = none) :
    activityRecord toLowerCase intent true h = none := by
  simp [activityRecord, getPretransactionDescription, hd]

theorem transactionHashHandler_main (toLowerCase : String → String) (intent : Intent)
    (h : String) :
    transactionHashHandler toLowerCase intent false h =
      [.getTransaction h,
       .addTransactionActivity (transactionActivity intent h intent.description)] := by
  simp [transactionHashHandler, activityRecord_main]

@[simp]
theorem activityRecords_transactionHashHandler (toLowerCase : String → String)
    (intent : Intent) (isPretransaction : Bool) (h : String) :
    activityRecords (transactionHashHandler toLowerCase intent isPretransaction h) =
      (activityRecord toLowerCase intent isPretransaction h).toList := by
  unfold transactionHashHandler
  cases activityRecord toLowerCase intent isPretransaction h <;>
    simp [activityRecords, Effect.activity?]

@[simp]
theorem sentTransactions_transactionHashHandler (toLowerCase : String → String)
    (intent : Intent) (isPretransaction : Bool) (h : String) :
    sentTransactions (transactionHashHandler toLowerCase intent isPretransaction h) = [] := by
  unfold transactionHashHandler
  cases activityRecord toLowerCase intent isPretransaction h <;>
    simp [sentTransactions, Effect.sent?]

@[simp]
theorem settlements_transactionHashHandler (toLowerCase : String → String)
    (intent : Intent) (isPretransaction : Bool) (h : String) :
    settlements (transactionHashHandler toLowerCase intent isPretransaction h) = [] := by
  unfold transactionHashHandler
  cases activityRecord toLowerCase intent isPretransaction h <;>
    simp [settlements, Effect.isSettlement]

theorem onTransactionHash_missing (toLowerCase : String → String) (k : Nat) (h : String)
    (m : Machine) (hk : m.submissions[k]? = none) :
    onTransactionHash toLowerCase k h m = m := by
  simp [onTransactionHash, hk]

theorem onTransactionHash_settled (toLowerCase : String → String) (k : Nat) (h : String)
    (m : Machine) (sub : Submission)
    (hk : m.submissions[k]? = some sub) (hs : sub.settled = true) :
    onTransactionHash toLowerCase k h m =
      { m with
        submissions := m.submissions.set k { sub with settled := true }
        effects := m.effects ++
          transactionHashHandler toLowerCase sub.intent sub.isPretransaction h } := by
  simp [onTransactionHash, hk, hs]

theorem onTransactionHash_pretransaction (toLowerCase : String → String) (k : Nat)
    (h : String) (m : Machine) (sub : Submission)
    (hk : m.submissions[k]? = some sub) (hs : sub.settled = false)
    (hp : sub.isPretransaction = true) :
    onTransactionHash toLowerCase k h m =
      { m with
        submissions := m.submissions.set k { sub with settled := true } ++
          [{ sub with isPretransaction := false, settled := false }]
        effects := m.effects ++ transactionHashHandler toLowerCase sub.intent true h ++
          [.sendTransaction (.transaction sub.transaction)] } := by
  simp [onTransactionHash, signTransaction, hk, hs, hp]

theorem onTransactionHash_unbound (toLowerCase : String → String) (k : Nat) (h : String)
    (m : Machine) (sub : Submission)
    (hk : m.submissions[k]? = some sub) (hs : sub.settled = false)
    (hp : sub.isPretransaction = false) (hb : sub.transactionBag = none) :
    onTransactionHash toLowerCase k h m =
      { m with
        submissions := m.submissions.set k { sub with settled := true }
        effects := m.effects ++
          [.getTransaction h,
           .addTransactionActivity (transactionActivity sub.intent h sub.intent.description)] } := by
  simp [onTransactionHash, hk, hs, hp, hb, transactionHashHandler_main]

theorem onTransactionHash_main (toLowerCase : String → String) (k : Nat) (h : String)
    (m : Machine) (sub : Submission) (bag : TransactionBag)
    (hk : m.submissions[k]? = some sub) (hs : sub.settled = false)
    (hp : sub.isPretransaction = false) (hb : sub.transactionBag = some bag) :
    onTransactionHash toLowerCase k h m =
      { m with
        state := { m.state with signError := none, status := .STATUS_SIGNED }
        submissions := m.submissions.set k { sub with settled := true }
        timers := m.timers ++ [(m.timerSeq, m.now + CLOSE_DELAY)]
        closeTimer := some m.timerSeq
        timerSeq := m.timerSeq + 1
        effects := m.effects ++
          [.getTransaction h,
           .addTransactionActivity (transactionActivity sub.intent h sub.intent.description),
           .resolve bag.ref h,
           .setTimeout m.timerSeq CLOSE_DELAY] } := by
  simp [onTransactionHash, hk, hs, hp, hb, startClosing, setState, componentDidUpdate,
    transactionHashHandler_main]

theorem onError_missing (k : Nat) (err : Option ProviderError) (m : Machine)
    (hk : m.submissions[k]? = none) : onError k err m = m := by
  simp [onError, hk]

theorem onError_settled (k : Nat) (err : Option ProviderError) (m : Machine) (sub : Submission)
    (hk : m.submissions[k]? = some sub) (hs : sub.settled = true) :
    onError k err m =
      { m with
        submissions := m.submissions.set k { sub with settled := true }
        effects := m.effects ++ errorHandler err } := by
  simp [onError, hk, hs]

theorem onError_unbound (k : Nat) (err : Option ProviderError) (m : Machine) (sub : Submission)
    (hk : m.submissions[k]? = some sub) (hs : sub.settled = false)
    (hb : sub.transactionBag = none) :
    onError k err m =
      { m with
        submissions := m.submissions.set k { sub with settled := true }
        effects := m.effects ++ errorHandler err } := by
  simp [onError, hk, hs, hb]

theorem onError_rejected (k : Nat) (err : Option ProviderError) (m : Machine) (sub : Submission)
    (bag : TransactionBag)
    (hk : m.submissions[k]? = some sub) (hs : sub.settled = false)
    (hb : sub.transactionBag = some bag) :
    onError k err m =
      componentDidUpdate m.state
        { m with
          state := { m.state with signError := err, status := .STATUS_ERROR }
          submissions := m.submissions.set k { sub with settled := true }
          effects := m.effects ++ errorHandler err ++ [.reject bag.ref err] } := by
  simp [onError, hk, hs, hb, setState]

theorem errorHandler_cases (err : Option ProviderError) :
    errorHandler err = [] ∨ ∃ h, errorHandler err = [.setActivityFailed h] := by
  unfold errorHandler
  split
  · split
    · split
      · exact Or.inr ⟨_, rfl⟩
      · exact Or.inl rfl
    · exact Or.inl rfl
  · exact Or.inl rfl

@[simp]
theorem activityRecords_errorHandler (err : Option ProviderError) :
    activityRecords (errorHandler err) = [] := by
  rcases errorHandler_cases err with h | ⟨_, h⟩ <;> rw [h] <;> rfl

@[simp]
theorem sentTransactions_errorHandler (err : Option ProviderError) :
    sentTransactions (errorHandler err) = [] := by
  rcases errorHandler_cases err with h | ⟨_, h⟩ <;> rw [h] <;> rfl

@[simp]
theorem settlements_errorHandler (err : Option ProviderError) :
    settlements (errorHandler err) = [] := by
  rcases errorHandler_cases err with h | ⟨_, h⟩ <;> rw [h] <;> rfl

theorem receiptHandler_cases (receipt : Receipt) :
    receiptHandler receipt = [.setActivityFailed receipt.transactionHash] ∨
      receiptHandler receipt = [.setActivityConfirmed receipt.transactionHash] := by
  unfold receiptHandler
  split
  · exact Or.inl rfl
  · exact Or.inr rfl

@[simp]
theorem activityRecords_receiptHandler (receipt : Receipt) :
    activityRecords (receiptHandler receipt) = [] := by
  rcases receiptHandler_cases receipt with h | h <;> rw [h] <;> rfl

@[simp]
theorem sentTransactions_receiptHandler (receipt : Receipt) :
    sentTransactions (receiptHandler receipt) = [] := by
  rcases receiptHandler_cases receipt with h | h <;> rw [h] <;> rfl

@[simp]
theorem settlements_receiptHandler (receipt : Receipt) :
    settlements (receiptHandler receipt) = [] := by
  rcases receiptHandler_cases receipt with h | h <;> rw [h] <;> rfl

theorem onReceipt_found (k : Nat) (receipt : Receipt) (m : Machine) (sub : Submission)
    (hk : m.submissions[k]? = some sub) :
    onReceipt k receipt m = { m with effects := m.effects ++ receiptHandler receipt } := by
  simp [onReceipt, hk]

theorem closeTimerCallback_eq (m : Machine) :
    closeTimerCallback m =
      if m.state.status = .STATUS_SIGNED then { m with state := handleSignerClose m.state }
      else m := by
  unfold closeTimerCallback
  split
  · simp [setState, componentDidUpdate, handleSignerClose]
  · rfl

theorem foldl_closeTimerCallback (due : List (Nat × Nat)) (m : Machine) :
    due.foldl (fun acc _ => closeTimerCallback acc) m =
      if due ≠ [] ∧ m.state.status = .STATUS_SIGNED then
        { m with state := handleSignerClose m.state }
      else m := by
  induction due generalizing m with
  | nil => simp
  | cons t rest ih =>
    rw [List.foldl_cons, ih, closeTimerCallback_eq]
    by_cases hs : m.state.status = .STATUS_SIGNED
    · by_cases hr : rest = [] <;> simp [hs, hr, handleSignerClose]
    · simp [hs]

theorem elapse_eq (ms : Nat) (m : Machine) :
    elapse ms m =
      { m with
        now := m.now + ms
        timers := m.timers.filter (fun t => decide (¬ t.2 ≤ m.now + ms))
        state :=
          if m.timers.filter (fun t => decide (t.2 ≤ m.now + ms)) ≠ [] ∧
              m.state.status = .STATUS_SIGNED then
            handleSignerClose m.state
          else m.state } := by
  unfold elapse
  simp only [foldl_closeTimerCallback]
  split <;> rfl

/-- The props change to a bag that is not the current one. -/
theorem componentWillReceiveProps_new (addressesEqual : String → String → Bool)
    (m : Machine) (next : Props) (bag : TransactionBag)
    (hnext : next.transactionBag = some bag)
    (hnew : ∀ current, m.props.transactionBag = some current → bag.ref ≠ current.ref) :
    componentWillReceiveProps addressesEqual next m =
      { setState (fun _ => stateFromTransactionBag addressesEqual m.props.apps bag
          { INITIAL_STATE with panelOpened := true, status := .STATUS_CONFIRMING }) m with
        props := next } := by
  unfold componentWillReceiveProps
  rw [hnext]
  cases hcur : m.props.transactionBag with
  | none => simp
  | some current => simp [hnew current hcur]

/-! ## One event, sequences of events -/

theorem run_append (host : Host) (m : Machine)
    (events later : List Event) :
    run host m (events ++ later) =
      run host (run host m events) later := by
  simp [run, List.foldl_append]

theorem run_concat (host : Host) (m : Machine)
    (events : List Event) (e : Event) :
    run host m (events ++ [e]) =
      step host (run host m events) e := by
  simp [run, List.foldl_append]

theorem run_cons (host : Host) (m : Machine)
    (e : Event) (events : List Event) :
    run host m (e :: events) =
      run host (step host m e) events := rfl

theorem step_state_cases (host : Host) (m : Machine) (e : Event) :
    (step host m e).state = m.state ∨
    (∃ bag, (step host m e).state =
      stateFromTransactionBag host.addressesEqual m.props.apps bag
        { INITIAL_STATE with panelOpened := true, status := .STATUS_CONFIRMING }) ∨
    (step host m e).state = { m.state with status := .STATUS_SIGNING } ∨
    (step host m e).state =
      { m.state with signError := none, status := .STATUS_SIGNED } ∨
    (∃ err, (step host m e).state =
      { m.state with signError := err, status := .STATUS_ERROR }) ∨
    (step host m e).state = handleSignerClose m.state ∨
    ((step host m e).state = INITIAL_STATE ∧ e = .transitionEnd false) := by
  cases e with
  | receiveProps next =>
    simp only [step, componentWillReceiveProps]
    split
    · split
      · rename_i bag _ _
        exact Or.inr (Or.inl ⟨bag, by simp⟩)
      · exact Or.inl rfl
    · exact Or.inl rfl
  | sign transaction intent pretransaction =>
    exact Or.inr (Or.inr (Or.inl (by simp [step, handleSign, signTransaction])))
  | transactionHash k h =>
    simp only [step]
    cases hk : m.submissions[k]? with
    | none => rw [onTransactionHash_missing _ k h m hk]; exact Or.inl rfl
    | some sub =>
      cases hs : sub.settled with
      | true => rw [onTransactionHash_settled _ k h m sub hk hs]; exact Or.inl rfl
      | false =>
        cases hp : sub.isPretransaction with
        | true => rw [onTransactionHash_pretransaction _ k h m sub hk hs hp]; exact Or.inl rfl
        | false =>
          cases hb : sub.transactionBag with
          | none => rw [onTransactionHash_unbound _ k h m sub hk hs hp hb]; exact Or.inl rfl
          | some bag =>
            rw [onTransactionHash_main _ k h m sub bag hk hs hp hb]
            exact Or.inr (Or.inr (Or.inr (Or.inl rfl)))
  | receipt k receipt =>
    simp only [step, onReceipt]
    split <;> exact Or.inl rfl
  | error k err =>
    simp only [step]
    cases hk : m.submissions[k]? with
    | none => rw [onError_missing k err m hk]; exact Or.inl rfl
    | some sub =>
      cases hs : sub.settled with
      | true => rw [onError_settled k err m sub hk hs]; exact Or.inl rfl
      | false =>
        cases hb : sub.transactionBag with
        | none => rw [onError_unbound k err m sub hk hs hb]; exact Or.inl rfl
        | some bag =>
          rw [onError_rejected k err m sub bag hk hs hb]
          exact Or.inr (Or.inr (Or.inr (Or.inr (Or.inl ⟨err, by simp⟩))))
  | transactionLookup h nonce =>
    simp only [step, onTransactionLookup]
    split <;> exact Or.inl rfl
  | close =>
    exact Or.inr (Or.inr (Or.inr (Or.inr (Or.inr (Or.inl (by simp [step]))))))
  | transitionEnd opened =>
    cases opened with
    | true => exact Or.inl (by simp [step, handleSignerTransitionEnd])
    | false =>
      exact Or.inr (Or.inr (Or.inr (Or.inr (Or.inr (Or.inr
        ⟨by simp [step, handleSignerTransitionEnd], rfl⟩)))))
  | elapse ms =>
    simp only [step, elapse_eq]
    split
    · exact Or.inr (Or.inr (Or.inr (Or.inr (Or.inr (Or.inl rfl)))))
    · exact Or.inl rfl

theorem openedWithIntent_step (host : Host) (m : Machine)
    (e : Event) (h : OpenedWithIntent m) : OpenedWithIntent (step host m e) := by
  unfold OpenedWithIntent at *
  rcases step_state_cases host m e with
    hs | ⟨bag, hs⟩ | hs | hs | ⟨err, hs⟩ | hs | ⟨hs, -⟩ <;> rw [hs]
  · exact h
  · intro _
    simp only [stateFromTransactionBag]
    split <;> simp
  · exact h
  · exact h
  · exact h
  · simp [handleSignerClose]
  · simp [INITIAL_STATE]

theorem openedWithIntent_run (host : Host) (props : Props)
    (events : List Event) : OpenedWithIntent (run host (mount props) events) := by
  induction events using List.reverseRecOn with
  | nil => simp [run, OpenedWithIntent, mount, INITIAL_STATE]
  | append_singleton events e ih =>
    rw [run_concat]
    exact openedWithIntent_step host _ e ih

/-! ## Effects of `handleSign` and of its continuation -/

@[simp]
theorem activityRecords_nil : activityRecords [] = [] := rfl

@[simp]
theorem activityRecords_cons (e : Effect) (l : List Effect) :
    activityRecords (e :: l) = e.activity?.toList ++ activityRecords l := by
  cases h : e.activity? <;> simp [activityRecords, List.filterMap_cons, h]

@[simp]
theorem sentTransactions_nil : sentTransactions [] = [] := rfl

@[simp]
theorem sentTransactions_cons (e : Effect) (l : List Effect) :
    sentTransactions (e :: l) = e.sent?.toList ++ sentTransactions l := by
  cases h : e.sent? <;> simp [sentTransactions, List.filterMap_cons, h]

@[simp]
theorem settlements_nil : settlements [] = [] := rfl

@[simp]
theorem settlements_cons (e : Effect) (l : List Effect) :
    settlements (e :: l) = (if e.isSettlement then [e] else []) ++ settlements l := by
  cases h : e.isSettlement <;> simp [settlements, List.filter_cons, h]

@[simp]
theorem handleSign_submissions (transaction : Transaction) (intent : Intent)
    (pretransaction : Option Pretransaction) (m : Machine) :
    (handleSign transaction intent pretransaction m).submissions =
      m.submissions ++
        [{ transactionBag := m.props.transactionBag, transaction := transaction
           intent := intent, isPretransaction := pretransaction.isSome, settled := false }] := by
  simp [handleSign, signTransaction, signTransaction]

@[simp]
theorem handleSign_props (transaction : Transaction) (intent : Intent)
    (pretransaction : Option Pretransaction) (m : Machine) :
    (handleSign transaction intent pretransaction m).props = m.props := by
  simp [handleSign, signTransaction, signTransaction]

@[simp]
theorem handleSign_state (transaction : Transaction) (intent : Intent)
    (pretransaction : Option Pretransaction) (m : Machine) :
    (handleSign transaction intent pretransaction m).state =
      { m.state with status := .STATUS_SIGNING } := by
  simp [handleSign, signTransaction, signTransaction]

@[simp]
theorem handleSign_sent (transaction : Transaction) (intent : Intent)
    (pretransaction : Option Pretransaction) (m : Machine) :
    sentTransactions (handleSign transaction intent pretransaction m).effects =
      sentTransactions m.effects ++
        [match pretransaction with
          | some p => .pretransaction p
          | none => .transaction transaction] := by
  simp [handleSign, signTransaction, Effect.sent?]

@[simp]
theorem handleSign_records (transaction : Transaction) (intent : Intent)
    (pretransaction : Option Pretransaction) (m : Machine) :
    activityRecords (handleSign transaction intent pretransaction m).effects =
      activityRecords m.effects := by
  simp [handleSign, signTransaction, Effect.activity?]

@[simp]
theorem handleSign_settlements (transaction : Transaction) (intent : Intent)
    (pretransaction : Option Pretransaction) (m : Machine) :
    settlements (handleSign transaction intent pretransaction m).effects =
      settlements m.effects := by
  simp [handleSign, signTransaction, Effect.isSettlement]

/-- The run of `handleSign` with a pretransaction, up to the hash of the
pretransaction: the main transaction has been sent and waits at index `k + 1`. -/
theorem pretransaction_hashed (host : Host) (m : Machine)
    (transaction : Transaction) (intent : Intent) (pre : Pretransaction) (preHash : String) :
    let hashed := run host m
      [.sign transaction intent (some pre), .transactionHash m.submissions.length preHash]
    hashed.submissions = m.submissions ++
      [{ transactionBag := m.props.transactionBag, transaction := transaction
         intent := intent, isPretransaction := true, settled := true },
       { transactionBag := m.props.transactionBag, transaction := transaction
         intent := intent, isPretransaction := false, settled := false }] ∧
    hashed.props = m.props ∧
    hashed.state = { m.state with status := .STATUS_SIGNING } ∧
    activityRecords hashed.effects =
      activityRecords m.effects ++ (activityRecord host.toLowerCase intent true preHash).toList ∧
    sentTransactions hashed.effects =
      sentTransactions m.effects ++ [.pretransaction pre, .transaction transaction] ∧
    settlements hashed.effects = settlements m.effects := by
  intro hashed
  have hk : (handleSign transaction intent (some pre) m).submissions[m.submissions.length]? =
      some { transactionBag := m.props.transactionBag, transaction := transaction
             intent := intent, isPretransaction := true, settled := false } := by
    simp
  have hrun : hashed = onTransactionHash host.toLowerCase m.submissions.length preHash
      (handleSign transaction intent (some pre) m) := rfl
  rw [onTransactionHash_pretransaction _ _ _ _ _ hk rfl rfl] at hrun
  clear_value hashed
  subst hrun
  refine ⟨by simp, by simp, by simp, ?_, ?_, ?_⟩
  · simp [Effect.activity?]
  · simp [Effect.sent?]
  · simp [Effect.isSettlement]

/-- The hash of an unsettled main submission adds one record and sends nothing,
with or without a bag to resolve. -/
theorem main_hashed_log (toLowerCase : String → String) (k : Nat) (h : String) (m : Machine)
    (sub : Submission)
    (hk : m.submissions[k]? = some sub) (hs : sub.settled = false)
    (hp : sub.isPretransaction = false) :
    activityRecords (onTransactionHash toLowerCase k h m).effects =
      activityRecords m.effects ++ [transactionActivity sub.intent h sub.intent.description] ∧
    sentTransactions (onTransactionHash toLowerCase k h m).effects =
      sentTransactions m.effects := by
  cases hb : sub.transactionBag with
  | none =>
    rw [onTransactionHash_unbound _ k h m sub hk hs hp hb]
    simp [Effect.activity?, Effect.sent?]
  | some bag =>
    rw [onTransactionHash_main _ k h m sub bag hk hs hp hb]
    simp [Effect.activity?, Effect.sent?]

/-- The records and submissions of a run whose pretransaction and main
transaction are both hashed: the record of the pretransaction, unless
`intent.description` is undefined and the handler throws before
`addTransactionActivity`, then the record of the main transaction. -/
theorem hashed_run_log (host : Host) (m : Machine)
    (transaction : Transaction) (intent : Intent) (pre : Pretransaction)
    (preHash transactionHash : String) :
    activityRecords (run host m
      [.sign transaction intent (some pre), .transactionHash m.submissions.length preHash,
       .transactionHash (m.submissions.length + 1) transactionHash]).effects =
      activityRecords m.effects ++
        ((activityRecord host.toLowerCase intent true preHash).toList ++
          [transactionActivity intent transactionHash intent.description]) ∧
    sentTransactions (run host m
      [.sign transaction intent (some pre), .transactionHash m.submissions.length preHash,
       .transactionHash (m.submissions.length + 1) transactionHash]).effects =
      sentTransactions m.effects ++ [.pretransaction pre, .transaction transaction] := by
  have hpre := pretransaction_hashed host m transaction intent pre preHash
  have hfinal : run host m
      [.sign transaction intent (some pre), .transactionHash m.submissions.length preHash,
       .transactionHash (m.submissions.length + 1) transactionHash] =
      onTransactionHash host.toLowerCase (m.submissions.length + 1) transactionHash
        (run host m
          [.sign transaction intent (some pre),
           .transactionHash m.submissions.length preHash]) :=
    rfl
  rw [hfinal]
  generalize run host m
    [.sign transaction intent (some pre), .transactionHash m.submissions.length preHash] = hashed
    at hpre
  obtain ⟨hsubs, -, -, hrec, hsent, -⟩ := hpre
  have hk : hashed.submissions[m.submissions.length + 1]? =
      some { transactionBag := m.props.transactionBag, transaction := transaction
             intent := intent, isPretransaction := false, settled := false } := by
    rw [hsubs, List.getElem?_append_right (by omega)]
    simp
  obtain ⟨h1, h2⟩ := main_hashed_log host.toLowerCase _ transactionHash hashed _ hk rfl rfl
  refine ⟨?_, ?_⟩
  · rw [h1, hrec]; simp
  · rw [h2, hsent]

/-- With an undefined `intent.description` the hash handler of the
pretransaction throws before `addTransactionActivity`: the fully hashed run adds
the record of the main transaction only. -/
theorem hashed_run_without_description (host : Host) (m : Machine)
    (transaction : Transaction) (intent : Intent) (pre : Pretransaction)
    (preHash transactionHash : String) (hdescription : intent.description = none) :
    activityRecords (run host m
      [.sign transaction intent (some pre), .transactionHash m.submissions.length preHash,
       .transactionHash (m.submissions.length + 1) transactionHash]).effects =
      activityRecords m.effects ++ [transactionActivity intent transactionHash none] := by
  rw [(hashed_run_log host m transaction intent pre preHash transactionHash).1,
    activityRecord_throws _ intent preHash hdescription, hdescription]
  rfl

/-- The forwarder field of a record is computed from the intent alone. -/
theorem transactionActivity_forwarder (intent : Intent) (h : String)
    (description : Option String) :
    (transactionActivity intent h description).forwarderProxyAddress =
      if intent.to_ ≠ intent.transaction.to_ then intent.transaction.to_ else "" := by
  simp [transactionActivity]

/-- Every record the handler builds is the object literal of the source, with
some description. -/
theorem activityRecord_shape (toLowerCase : String → String) (intent : Intent)
    (isPretransaction : Bool) (h : String) (record : ActivityRecord)
    (hr : activityRecord toLowerCase intent isPretransaction h = some record) :
    ∃ description, record = transactionActivity intent h description := by
  unfold activityRecord at hr
  split at hr
  · split at hr
    · exact ⟨_, (Option.some.inj hr).symm⟩
    · cases hr
  · exact ⟨_, (Option.some.inj hr).symm⟩

/-- A run of `handleSign` started with a bag in the props, all of whose
submissions are hashed. -/
theorem hashed_run (host : Host) (m : Machine)
    (bag : TransactionBag) (transaction : Transaction) (intent : Intent)
    (pre : Option Pretransaction) (preHash h : String)
    (hbag : m.props.transactionBag = some bag) :
    let hashed := run host m
      (.sign transaction intent pre :: hashedEvents m.submissions.length pre preHash h)
    hashed.state = { m.state with signError := none, status := .STATUS_SIGNED } ∧
    settlements hashed.effects = settlements m.effects ++ [.resolve bag.ref h] ∧
    hashed.props = m.props ∧
    mainIndex m.submissions.length pre < hashed.submissions.length := by
  intro hashed
  cases pre with
  | none =>
    have hk : (handleSign transaction intent none m).submissions[m.submissions.length]? =
        some { transactionBag := m.props.transactionBag, transaction := transaction
               intent := intent, isPretransaction := false, settled := false } := by
      simp
    have hrun : hashed = onTransactionHash host.toLowerCase m.submissions.length h
        (handleSign transaction intent none m) := rfl
    rw [onTransactionHash_main _ _ _ _ _ bag hk rfl rfl hbag] at hrun
    clear_value hashed
    subst hrun
    refine ⟨by simp, by simp [Effect.isSettlement], by simp, by simp [mainIndex]⟩
  | some p =>
    have hpre := pretransaction_hashed host m transaction intent p preHash
    have hrun : hashed = onTransactionHash host.toLowerCase (m.submissions.length + 1) h
        (run host m
          [.sign transaction intent (some p), .transactionHash m.submissions.length preHash]) :=
      rfl
    clear_value hashed
    generalize run host m
      [.sign transaction intent (some p), .transactionHash m.submissions.length preHash] = mid
      at hpre hrun
    obtain ⟨hsubs, hprops, hstate, -, -, hsettle⟩ := hpre
    have hk : mid.submissions[m.submissions.length + 1]? =
        some { transactionBag := m.props.transactionBag, transaction := transaction
               intent := intent, isPretransaction := false, settled := false } := by
      rw [hsubs, List.getElem?_append_right (by omega)]
      simp
    rw [onTransactionHash_main _ _ _ _ _ bag hk rfl rfl hbag] at hrun
    subst hrun
    refine ⟨by simp [hstate], by simp [Effect.isSettlement, hsettle], by simp [hprops], ?_⟩
    simp [mainIndex, hsubs]

/-- An event other than a `handleSign` call or a `transactionHash` event sends
nothing to the provider, adds no activity record and creates no submission. -/
theorem quiet_step (host : Host) (m : Machine) (e : Event)
    (he : e.submitsNothing = true) :
    sentTransactions (step host m e).effects = sentTransactions m.effects ∧
    activityRecords (step host m e).effects = activityRecords m.effects ∧
    (step host m e).submissions.length = m.submissions.length := by
  cases e with
  | receiveProps next =>
    simp only [step, componentWillReceiveProps]
    split
    · split <;> simp
    · simp
  | sign transaction intent pretransaction => simp [Event.submitsNothing] at he
  | transactionHash k h => simp [Event.submitsNothing] at he
  | receipt k receipt =>
    simp only [step, onReceipt]
    split <;> simp
  | error k err =>
    simp only [step]
    cases hk : m.submissions[k]? with
    | none => rw [onError_missing k err m hk]; simp
    | some sub =>
      cases hs : sub.settled with
      | true => rw [onError_settled k err m sub hk hs]; simp
      | false =>
        cases hb : sub.transactionBag with
        | none => rw [onError_unbound k err m sub hk hs hb]; simp
        | some bag => rw [onError_rejected k err m sub bag hk hs hb]; simp [Effect.sent?, Effect.activity?]
  | transactionLookup h nonce =>
    simp only [step, onTransactionLookup]
    split <;> simp [Effect.sent?, Effect.activity?]
  | close => simp [step]
  | transitionEnd opened => simp [step]
  | elapse ms => simp [step, elapse_eq]

theorem quiet_run (host : Host) (m : Machine)
    (events : List Event) (he : ∀ e ∈ events, e.submitsNothing = true) :
    sentTransactions (run host m events).effects = sentTransactions m.effects ∧
    activityRecords (run host m events).effects = activityRecords m.effects ∧
    (run host m events).submissions.length = m.submissions.length := by
  induction events generalizing m with
  | nil => exact ⟨rfl, rfl, rfl⟩
  | cons e rest ih =>
    rw [run_cons]
    obtain ⟨h1, h2, h3⟩ := quiet_step host m e (he e (List.mem_cons_self e rest))
    obtain ⟨r1, r2, r3⟩ := ih (step host m e)
      (fun x hx => he x (List.mem_cons_of_mem e hx))
    exact ⟨r1.trans h1, r2.trans h2, r3.trans h3⟩

/-- What one event does to the status, the stored error and the settle calls:
it keeps the settle calls and, if the new status is `STATUS_SIGNED` or
`STATUS_ERROR`, also the status and the error; or it resolves a handle and
stores `STATUS_SIGNED` with no error; or it rejects a handle and stores
`STATUS_ERROR` with the error. -/
theorem step_outcome (host : Host) (m : Machine) (e : Event) :
    (settlements (step host m e).effects = settlements m.effects ∧
      ((step host m e).state.status = .STATUS_SIGNED ∨
          (step host m e).state.status = .STATUS_ERROR →
        (step host m e).state.status = m.state.status ∧
          (step host m e).state.signError = m.state.signError)) ∨
    (∃ bag h,
      settlements (step host m e).effects = settlements m.effects ++ [.resolve bag h] ∧
      (step host m e).state =
        { m.state with signError := none, status := .STATUS_SIGNED }) ∨
    (∃ bag err,
      settlements (step host m e).effects = settlements m.effects ++ [.reject bag err] ∧
      (step host m e).state =
        { m.state with signError := err, status := .STATUS_ERROR }) := by
  cases e with
  | receiveProps next =>
    left
    simp only [step, componentWillReceiveProps]
    split
    · split
      · refine ⟨by simp, ?_⟩
        simp [stateFromTransactionBag]
      · exact ⟨rfl, fun _ => ⟨rfl, rfl⟩⟩
    · exact ⟨rfl, fun _ => ⟨rfl, rfl⟩⟩
  | sign transaction intent pretransaction =>
    left
    simp [step]
  | transactionHash k h =>
    simp only [step]
    cases hk : m.submissions[k]? with
    | none => rw [onTransactionHash_missing _ k h m hk]; exact Or.inl ⟨rfl, fun _ => ⟨rfl, rfl⟩⟩
    | some sub =>
      cases hs : sub.settled with
      | true =>
        rw [onTransactionHash_settled _ k h m sub hk hs]
        exact Or.inl ⟨by simp [Effect.isSettlement], fun _ => ⟨rfl, rfl⟩⟩
      | false =>
        cases hp : sub.isPretransaction with
        | true =>
          rw [onTransactionHash_pretransaction _ k h m sub hk hs hp]
          exact Or.inl ⟨by simp [Effect.isSettlement], fun _ => ⟨rfl, rfl⟩⟩
        | false =>
          cases hb : sub.transactionBag with
          | none =>
            rw [onTransactionHash_unbound _ k h m sub hk hs hp hb]
            exact Or.inl ⟨by simp [Effect.isSettlement], fun _ => ⟨rfl, rfl⟩⟩
          | some bag =>
            rw [onTransactionHash_main _ k h m sub bag hk hs hp hb]
            exact Or.inr (Or.inl ⟨bag.ref, h, by simp [Effect.isSettlement], rfl⟩)
  | receipt k receipt =>
    left
    simp only [step, onReceipt]
    split
    · exact ⟨rfl, fun _ => ⟨rfl, rfl⟩⟩
    · exact ⟨by simp, fun _ => ⟨rfl, rfl⟩⟩
  | error k err =>
    simp only [step]
    cases hk : m.submissions[k]? with
    | none => rw [onError_missing k err m hk]; exact Or.inl ⟨rfl, fun _ => ⟨rfl, rfl⟩⟩
    | some sub =>
      cases hs : sub.settled with
      | true =>
        rw [onError_settled k err m sub hk hs]
        exact Or.inl ⟨by simp, fun _ => ⟨rfl, rfl⟩⟩
      | false =>
        cases hb : sub.transactionBag with
        | none =>
          rw [onError_unbound k err m sub hk hs hb]
          exact Or.inl ⟨by simp, fun _ => ⟨rfl, rfl⟩⟩
        | some bag =>
          rw [onError_rejected k err m sub bag hk hs hb]
          exact Or.inr (Or.inr ⟨bag.ref, err, by simp [Effect.isSettlement], by simp⟩)
  | transactionLookup h nonce =>
    left
    simp only [step, onTransactionLookup]
    split <;> exact ⟨by simp [Effect.isSettlement], fun _ => ⟨rfl, rfl⟩⟩
  | close =>
    left
    simp [step, handleSignerClose]
  | transitionEnd opened =>
    left
    cases opened <;> simp [step, handleSignerTransitionEnd, INITIAL_STATE]
  | elapse ms =>
    left
    simp only [step, elapse_eq]
    constructor
    · simp
    · split <;> simp [handleSignerClose]

/-- The status invariant of the reachable states. -/
theorem status_invariant (host : Host)
    (props : Props) (events : List Event) :
    ((run host (mount props) events).state.status = .STATUS_SIGNED →
      (run host (mount props) events).state.signError = none) ∧
    ((run host (mount props) events).state.status = .STATUS_ERROR →
      ∃ bag, lastRejection (run host (mount props) events).effects =
        some (bag, (run host (mount props) events).state.signError)) := by
  induction events using List.reverseRecOn with
  | nil => simp [run, mount, INITIAL_STATE]
  | append_singleton events e ih =>
    rw [run_concat]
    generalize run host (mount props) events = r at ih
    obtain ⟨ihs, ihe⟩ := ih
    rcases step_outcome host r e with
      ⟨hset, hkeep⟩ | ⟨bag, h, hset, hstate⟩ | ⟨bag, err, hset, hstate⟩
    · constructor
      · intro hs
        obtain ⟨h1, h2⟩ := hkeep (Or.inl hs)
        rw [h2]
        exact ihs (h1 ▸ hs)
      · intro hs
        obtain ⟨h1, h2⟩ := hkeep (Or.inr hs)
        rw [h2]
        simp only [lastRejection, hset]
        exact ihe (h1 ▸ hs)
    · rw [hstate]
      simp
    · rw [hstate]
      refine ⟨by simp, fun _ => ⟨bag, ?_⟩⟩
      simp [lastRejection, hset, Effect.rejection?]

theorem set_settled_keeps (subs : List Submission) (j k : Nat) (sub other : Submission)
    (hk : subs[k]? = some sub) (hs : sub.settled = true) (hj : subs[j]? = some other) :
    (subs.set j { other with settled := true })[k]? = some sub := by
  by_cases hjk : j = k
  · subst hjk
    rw [hk] at hj
    cases hj
    have hlt : j < subs.length := by
      rcases Nat.lt_or_ge j subs.length with h | h
      · exact h
      · rw [List.getElem?_eq_none h] at hk
        cases hk
    rw [List.getElem?_set_self hlt]
    cases sub
    simp_all
  · rw [List.getElem?_set_ne hjk]
    exact hk

/-- A settled submission is never changed again. -/
theorem settled_submission_kept (host : Host) (m : Machine)
    (e : Event) (k : Nat) (sub : Submission)
    (hk : m.submissions[k]? = some sub) (hs : sub.settled = true) :
    (step host m e).submissions[k]? = some sub := by
  have hlt : k < m.submissions.length := by
    rcases Nat.lt_or_ge k m.submissions.length with h | h
    · exact h
    · rw [List.getElem?_eq_none h] at hk
      cases hk
  cases e with
  | receiveProps next =>
    simp only [step, componentWillReceiveProps]
    split
    · split <;> simpa using hk
    · simpa using hk
  | sign transaction intent pretransaction =>
    simp only [step, handleSign_submissions]
    rw [List.getElem?_append_left hlt]
    exact hk
  | transactionHash j h =>
    simp only [step]
    cases hj : m.submissions[j]? with
    | none => rw [onTransactionHash_missing _ j h m hj]; exact hk
    | some other =>
      have hset := set_settled_keeps m.submissions j k sub other hk hs hj
      cases hso : other.settled with
      | true => rw [onTransactionHash_settled _ j h m other hj hso]; exact hset
      | false =>
        cases hp : other.isPretransaction with
        | true =>
          rw [onTransactionHash_pretransaction _ j h m other hj hso hp]
          simp only
          rw [List.getElem?_append_left (by simpa using hlt)]
          exact hset
        | false =>
          cases hb : other.transactionBag with
          | none => rw [onTransactionHash_unbound _ j h m other hj hso hp hb]; exact hset
          | some bag => rw [onTransactionHash_main _ j h m other bag hj hso hp hb]; exact hset
  | receipt j receipt =>
    simp only [step, onReceipt]
    split <;> exact hk
  | error j err =>
    simp only [step]
    cases hj : m.submissions[j]? with
    | none => rw [onError_missing j err m hj]; exact hk
    | some other =>
      have hset := set_settled_keeps m.submissions j k sub other hk hs hj
      cases hso : other.settled with
      | true => rw [onError_settled j err m other hj hso]; exact hset
      | false =>
        cases hb : other.transactionBag with
        | none => rw [onError_unbound j err m other hj hso hb]; exact hset
        | some bag =>
          rw [onError_rejected j err m other bag hj hso hb]
          simpa using hset
  | transactionLookup h nonce =>
    simp only [step, onTransactionLookup]
    split <;> exact hk
  | close => simpa [step] using hk
  | transitionEnd opened => simpa [step] using hk
  | elapse ms => simpa [step, elapse_eq] using hk

theorem settled_submission_kept_run (host : Host) (m : Machine)
    (events : List Event) (k : Nat) (sub : Submission)
    (hk : m.submissions[k]? = some sub) (hs : sub.settled = true) :
    (run host m events).submissions[k]? = some sub := by
  induction events generalizing m with
  | nil => exact hk
  | cons e rest ih =>
    rw [run_cons]
    exact ih _ (settled_submission_kept host m e k sub hk hs)

/-- After the failure of a freshly sent pretransaction its submission is settled. -/
theorem failed_pretransaction_settled (m : Machine) (transaction : Transaction)
    (intent : Intent) (pre : Pretransaction) (err : Option ProviderError) :
    (onError m.submissions.length err
        (handleSign transaction intent (some pre) m)).submissions[m.submissions.length]? =
      some { transactionBag := m.props.transactionBag, transaction := transaction
             intent := intent, isPretransaction := true, settled := true } := by
  have hk : (handleSign transaction intent (some pre) m).submissions[m.submissions.length]? =
      some { transactionBag := m.props.transactionBag, transaction := transaction
             intent := intent, isPretransaction := true, settled := false } := by
    simp
  have hlt : m.submissions.length <
      (handleSign transaction intent (some pre) m).submissions.length := by
    simp
  cases hb : m.props.transactionBag with
  | none =>
    rw [onError_unbound _ err _ _ hk rfl (by simpa using hb)]
    simp only
    rw [List.getElem?_set_self hlt]
    simp [hb]
  | some bag =>
    rw [onError_rejected _ err _ _ bag hk rfl (by simpa using hb)]
    simp only [componentDidUpdate_submissions]
    rw [List.getElem?_set_self hlt]
    simp [hb]

/-! ## Settle calls and waiting runs -/

theorem openRuns_concat (bag : Nat) (subs : List Submission) (sub : Submission) :
    openRuns bag (subs ++ [sub]) = openRuns bag subs + (sub.awaits bag).toNat := by
  cases h : sub.awaits bag <;> simp [openRuns, List.countP_append, List.countP_cons, h]

theorem openRuns_set (bag : Nat) (subs : List Submission) (k : Nat) (sub new : Submission)
    (hk : subs[k]? = some sub) :
    openRuns bag (subs.set k new) + (sub.awaits bag).toNat =
      openRuns bag subs + (new.awaits bag).toNat := by
  induction subs generalizing k with
  | nil => simp at hk
  | cons a l ih =>
    cases k with
    | zero =>
      simp only [List.getElem?_cons_zero, Option.some.injEq] at hk
      subst hk
      simp only [List.set_cons_zero, openRuns, List.countP_cons]
      cases a.awaits bag <;> cases new.awaits bag <;> simp
    | succ j =>
      simp only [List.getElem?_cons_succ] at hk
      have := ih j hk
      simp only [List.set_cons_succ, openRuns, List.countP_cons] at this ⊢
      omega

theorem awaits_settled (bag : Nat) (sub : Submission) :
    Submission.awaits bag { sub with settled := true } = false := by
  simp [Submission.awaits]

theorem awaits_of_settled (bag : Nat) (sub : Submission) (hs : sub.settled = true) :
    sub.awaits bag = false := by
  simp [Submission.awaits, hs]

theorem awaits_unbound (bag : Nat) (sub : Submission) (hb : sub.transactionBag = none) :
    sub.awaits bag = false := by
  simp [Submission.awaits, hb]

theorem awaits_main_after_pretransaction (bag : Nat) (sub : Submission)
    (hs : sub.settled = false) :
    Submission.awaits bag { sub with isPretransaction := false, settled := false } =
      sub.awaits bag := by
  simp [Submission.awaits, hs]

theorem awaits_bound (bag : Nat) (sub : Submission) (b : TransactionBag)
    (hs : sub.settled = false) (hb : sub.transactionBag = some b) :
    sub.awaits bag = decide (b.ref = bag) := by
  simp [Submission.awaits, hs, hb]

theorem settleCount_of_settlements (bag : Nat) (a b : List Effect)
    (h : settlements a = settlements b) : settleCount bag a = settleCount bag b := by
  simp [settleCount, h]

theorem settleCount_of_settlements_concat (bag : Nat) (a b : List Effect) (x : Effect)
    (h : settlements a = settlements b ++ [x]) :
    settleCount bag a = settleCount bag b + (x.settles bag).toNat := by
  cases hx : x.settles bag <;> simp [settleCount, h, List.countP_append, List.countP_cons, hx]

/-- One event keeps the balance between settle calls, waiting runs and
`handleSign` calls of a bag. -/
theorem settle_step (host : Host) (bag : Nat) (m : Machine)
    (e : Event) :
    settleCount bag (step host m e).effects +
        openRuns bag (step host m e).submissions =
      settleCount bag m.effects + openRuns bag m.submissions +
        signCount host bag m [e] := by
  cases e with
  | receiveProps next =>
    have h1 : settlements (step host m (.receiveProps next)).effects =
        settlements m.effects := by
      simp only [step, componentWillReceiveProps]
      split
      · split <;> simp
      · simp
    have h2 : (step host m (.receiveProps next)).submissions = m.submissions := by
      simp only [step, componentWillReceiveProps]
      split
      · split <;> simp
      · simp
    rw [settleCount_of_settlements bag _ _ h1, h2]
    simp [signCount]
  | sign transaction intent pretransaction =>
    simp only [step]
    rw [settleCount_of_settlements bag _ _ (handleSign_settlements _ _ _ m),
      handleSign_submissions, openRuns_concat]
    have : Submission.awaits bag
        { transactionBag := m.props.transactionBag, transaction := transaction
          intent := intent, isPretransaction := pretransaction.isSome, settled := false } =
        showsBag bag m := by
      simp [Submission.awaits, showsBag]
    rw [this]
    cases hshow : showsBag bag m <;> simp [signCount, hshow]
    omega
  | transactionHash k h =>
    simp only [step, signCount]
    cases hk : m.submissions[k]? with
    | none => rw [onTransactionHash_missing _ k h m hk]; simp
    | some sub =>
      have hopen := openRuns_set bag m.submissions k sub { sub with settled := true } hk
      rw [awaits_settled] at hopen
      cases hs : sub.settled with
      | true =>
        rw [onTransactionHash_settled _ k h m sub hk hs]
        have hset : settleCount bag (m.effects ++
            transactionHashHandler host.toLowerCase sub.intent sub.isPretransaction h) =
            settleCount bag m.effects :=
          settleCount_of_settlements bag _ _ (by simp)
        rw [awaits_of_settled bag sub hs] at hopen
        simp only [hset]
        simp only [Bool.toNat_false] at hopen
        omega
      | false =>
        cases hp : sub.isPretransaction with
        | true =>
          rw [onTransactionHash_pretransaction _ k h m sub hk hs hp]
          have hset : settleCount bag (m.effects ++
              transactionHashHandler host.toLowerCase sub.intent true h ++
              [.sendTransaction (.transaction sub.transaction)]) = settleCount bag m.effects :=
            settleCount_of_settlements bag _ _ (by simp [Effect.isSettlement])
          simp only [hset, openRuns_concat, awaits_main_after_pretransaction bag sub hs]
          simp only [Bool.toNat_false] at hopen
          omega
        | false =>
          cases hb : sub.transactionBag with
          | none =>
            rw [onTransactionHash_unbound _ k h m sub hk hs hp hb]
            have hset : settleCount bag (m.effects ++ [.getTransaction h,
                .addTransactionActivity (transactionActivity sub.intent h sub.intent.description)])
                = settleCount bag m.effects :=
              settleCount_of_settlements bag _ _ (by simp [Effect.isSettlement])
            rw [awaits_unbound bag sub hb] at hopen
            simp only [hset]
            simp only [Bool.toNat_false] at hopen
            omega
          | some b =>
            rw [onTransactionHash_main _ k h m sub b hk hs hp hb]
            have hset : settleCount bag (m.effects ++ [.getTransaction h,
                .addTransactionActivity (transactionActivity sub.intent h sub.intent.description),
                .resolve b.ref h, .setTimeout m.timerSeq CLOSE_DELAY])
                = settleCount bag m.effects + (Effect.settles bag (.resolve b.ref h)).toNat :=
              settleCount_of_settlements_concat bag _ _ _ (by simp [Effect.isSettlement])
            rw [awaits_bound bag sub b hs hb] at hopen
            simp only [hset, Effect.settles]
            simp only [Bool.toNat_false] at hopen
            omega
  | receipt k receipt =>
    simp only [step, onReceipt, signCount]
    split
    · simp
    · rw [settleCount_of_settlements bag _ m.effects (by simp)]
      simp
  | error k err =>
    simp only [step, signCount]
    cases hk : m.submissions[k]? with
    | none => rw [onError_missing k err m hk]; simp
    | some sub =>
      have hopen := openRuns_set bag m.submissions k sub { sub with settled := true } hk
      rw [awaits_settled] at hopen
      simp only [Bool.toNat_false] at hopen
      cases hs : sub.settled with
      | true =>
        rw [onError_settled k err m sub hk hs]
        have hset : settleCount bag (m.effects ++ errorHandler err) = settleCount bag m.effects :=
          settleCount_of_settlements bag _ _ (by simp)
        rw [awaits_of_settled bag sub hs] at hopen
        simp only [hset]
        simp only [Bool.toNat_false] at hopen
        omega
      | false =>
        cases hb : sub.transactionBag with
        | none =>
          rw [onError_unbound k err m sub hk hs hb]
          have hset : settleCount bag (m.effects ++ errorHandler err) = settleCount bag m.effects :=
            settleCount_of_settlements bag _ _ (by simp)
          rw [awaits_unbound bag sub hb] at hopen
          simp only [hset]
          simp only [Bool.toNat_false] at hopen
          omega
        | some b =>
          rw [onError_rejected k err m sub b hk hs hb]
          have hset : settleCount bag (componentDidUpdate m.state
              { m with
                state := { m.state with signError := err, status := .STATUS_ERROR }
                submissions := m.submissions.set k { sub with settled := true }
                effects := m.effects ++ errorHandler err ++ [.reject b.ref err] }).effects
              = settleCount bag m.effects + (Effect.settles bag (.reject b.ref err)).toNat :=
            settleCount_of_settlements_concat bag _ _ _ (by simp [Effect.isSettlement])
          rw [awaits_bound bag sub b hs hb] at hopen
          simp only [hset, componentDidUpdate_submissions, Effect.settles]
          omega
  | transactionLookup h nonce =>
    simp only [step, onTransactionLookup, signCount]
    split
    · rw [settleCount_of_settlements bag _ m.effects (by simp [Effect.isSettlement])]
      simp
    · rw [settleCount_of_settlements bag _ m.effects (by simp [Effect.isSettlement])]
      simp
  | close =>
    simp only [step, signCount]
    rw [settleCount_of_settlements bag _ m.effects (by simp)]
    simp
  | transitionEnd opened =>
    simp only [step, signCount]
    rw [settleCount_of_settlements bag _ m.effects (by simp)]
    simp
  | elapse ms =>
    simp [step, elapse_eq, signCount]

/-- The balance over a sequence of events. -/
theorem settle_run (host : Host) (bag : Nat) (m : Machine)
    (events : List Event) :
    settleCount bag (run host m events).effects +
        openRuns bag (run host m events).submissions =
      settleCount bag m.effects + openRuns bag m.submissions +
        signCount host bag m events := by
  induction events generalizing m with
  | nil => simp [run, signCount]
  | cons e rest ih =>
    rw [run_cons, ih (step host m e), settle_step host bag m e]
    simp only [signCount]
    omega

/-! ## Intent resolution -/

/-- With more than one node the intent is read off the last node. -/
theorem transactionIntent_forwarded (addressesEqual : String → String → Bool)
    (apps : List App) (path : List Node) (transaction : Transaction) (hpath : path ≠ [])
    (h : 1 < path.length) :
    transactionIntent addressesEqual apps path transaction =
      { annotatedDescription := (path.getLast hpath).annotatedDescription
        description := (path.getLast hpath).description
        name := (path.getLast hpath).name
        to_ := (path.getLast hpath).to_
        transaction := transaction } := by
  unfold transactionIntent
  rw [dif_pos h]
  simp only [List.getLast_eq_getElem]

/-- With at most one node the intent is read off the transaction and the registry. -/
theorem transactionIntent_direct (addressesEqual : String → String → Bool)
    (apps : List App) (path : List Node) (transaction : Transaction)
    (h : ¬ 1 < path.length) :
    transactionIntent addressesEqual apps path transaction =
      { annotatedDescription := transaction.annotatedDescription
        description := transaction.description
        name := match apps.find? (fun app => addressesEqual app.proxyAddress transaction.to_) with
          | some app => app.name
          | none => ""
        to_ := transaction.to_
        transaction := transaction } := by
  unfold transactionIntent
  rw [dif_neg h]

/-! ## The claims -/

/-! ### C1: a failed pretransaction -/

/-- C1: when `handleSign` runs with a pretransaction whose submission fails
before any hash, then, whatever follows short of a new `handleSign` call or a
`transactionHash` event, `sendTransaction` has been called exactly once, with
the pretransaction, no submission exists for the main transaction and
`addTransactionActivity` has not been called; even a `transactionHash` event
arriving afterwards for the failed submission sends nothing and only adds the
record of the pretransaction, the one described by `Allow ...` (no record at
all when `intent.description` is undefined and the handler throws). -/
theorem failed_pretransaction_aborts_run (host : Host)
    (m : Machine) (transaction : Transaction) (intent : Intent) (pre : Pretransaction)
    (err : Option ProviderError) (later : List Event)
    (hlater : ∀ e ∈ later, e.submitsNothing = true) :
    let final := run host m
      ([.sign transaction intent (some pre), .error m.submissions.length err] ++ later)
    sentTransactions final.effects = sentTransactions m.effects ++ [.pretransaction pre] ∧
    activityRecords final.effects = activityRecords m.effects ∧
    final.submissions.length = m.submissions.length + 1 ∧
    (∀ h : String,
      sentTransactions
          (step host final (.transactionHash m.submissions.length h)).effects =
        sentTransactions m.effects ++ [.pretransaction pre] ∧
      activityRecords
          (step host final (.transactionHash m.submissions.length h)).effects =
        activityRecords m.effects ++ (activityRecord host.toLowerCase intent true h).toList ∧
      (∀ description : String, intent.description = some description →
        activityRecord host.toLowerCase intent true h =
          some (transactionActivity intent h
            (some ("Allow " ++ intent.name ++ " to " ++
              lowerFirst host.toLowerCase description)))) ∧
      (intent.description = none → activityRecord host.toLowerCase intent true h = none) ∧
      (step host final (.transactionHash m.submissions.length h)).submissions.length =
        m.submissions.length + 1) := by
  intro final
  have hfinal : final = run host
      (onError m.submissions.length err (handleSign transaction intent (some pre) m)) later := by
    simp only [final, run_append]
    rfl
  obtain ⟨r1, r2, r3⟩ := quiet_run host
    (onError m.submissions.length err (handleSign transaction intent (some pre) m)) later hlater
  have e2 := quiet_step host (handleSign transaction intent (some pre) m)
    (.error m.submissions.length err) rfl
  simp only [step] at e2
  obtain ⟨s1, s2, s3⟩ := e2
  have hkept := settled_submission_kept_run host _ later _ _
    (failed_pretransaction_settled m transaction intent pre err) rfl
  rw [← hfinal] at r1 r2 r3 hkept
  have f1 : sentTransactions final.effects =
      sentTransactions m.effects ++ [.pretransaction pre] := by
    rw [r1, s1]; simp
  have f2 : activityRecords final.effects = activityRecords m.effects := by
    rw [r2, s2]; simp
  have f3 : final.submissions.length = m.submissions.length + 1 := by
    rw [r3, s3]; simp
  refine ⟨f1, f2, f3, ?_⟩
  intro h
  simp only [step]
  rw [onTransactionHash_settled _ _ h final _ hkept rfl]
  refine ⟨?_, ?_, ?_, ?_, ?_⟩
  · simp [f1]
  · simp [f2]
  · exact fun description hd => activityRecord_pretransaction _ intent h description hd
  · exact fun hd => activityRecord_throws _ intent h hd
  · simp [f3]

/-- C1 on the sample request: the wallet rejects the pretransaction, the panel
is then closed, its transition ends and five seconds pass. -/
theorem failed_pretransaction_aborts_run_witness :
    (∀ e ∈ [Event.close, Event.transitionEnd false, Event.elapse 5000],
      e.submitsNothing = true) ∧
    sentTransactions (run sampleHost sampleShown
      ([.sign sampleTransaction sampleIntent (some samplePretransaction),
        .error sampleShown.submissions.length (some sampleError)] ++
        [Event.close, Event.transitionEnd false, Event.elapse 5000])).effects =
      sentTransactions sampleShown.effects ++ [.pretransaction samplePretransaction] :=
  ⟨by decide,
    (failed_pretransaction_aborts_run sampleHost sampleShown sampleTransaction sampleIntent
      samplePretransaction (some sampleError)
      [Event.close, Event.transitionEnd false, Event.elapse 5000] (by decide)).1⟩

/-! ### C2: the two activity records of a hashed run -/

/-- C2 (as amended): when `intent.description` is a string and the
pretransaction and the main transaction are both hashed,
`addTransactionActivity` is called exactly twice, first with the hash of the
pretransaction and then with the hash of the main transaction; in both records
`forwarderProxyAddress` is computed from the intent: it is
`intent.transaction.to` when that differs from `intent.to` and the empty string
otherwise, so (for a non-empty `intent.transaction.to`) it is empty if and only
if `intent.transaction.to` equals `intent.to`; the `to` of the submitted object
is not consulted. -/
theorem hashed_run_adds_two_records (host : Host) (m : Machine)
    (transaction : Transaction) (intent : Intent) (pre : Pretransaction)
    (preHash transactionHash description : String)
    (hdescription : intent.description = some description) :
    let final := run host m
      [.sign transaction intent (some pre), .transactionHash m.submissions.length preHash,
       .transactionHash (m.submissions.length + 1) transactionHash]
    activityRecords final.effects =
      activityRecords m.effects ++
        [transactionActivity intent preHash
          (some ("Allow " ++ intent.name ++ " to " ++ lowerFirst host.toLowerCase description)),
         transactionActivity intent transactionHash (some description)] ∧
    sentTransactions final.effects =
      sentTransactions m.effects ++ [.pretransaction pre, .transaction transaction] ∧
    (∀ (h : String) (d : Option String),
      (transactionActivity intent h d).transactionHash = h ∧
      (transactionActivity intent h d).forwarderProxyAddress =
        (if intent.to_ ≠ intent.transaction.to_ then intent.transaction.to_ else "") ∧
      (intent.transaction.to_ ≠ "" →
        ((transactionActivity intent h d).forwarderProxyAddress = "" ↔
          intent.transaction.to_ = intent.to_))) ∧
    (∀ (isPretransaction : Bool) (h : String) (record : ActivityRecord),
      activityRecord host.toLowerCase intent isPretransaction h = some record →
      ∃ d, record = transactionActivity intent h d) := by
  intro final
  obtain ⟨hrec, hsent⟩ := hashed_run_log host m transaction intent pre preHash transactionHash
  refine ⟨?_, hsent, ?_, ?_⟩
  · rw [hrec, activityRecord_pretransaction _ intent preHash description hdescription,
      hdescription]
    rfl
  · intro h d
    refine ⟨rfl, transactionActivity_forwarder intent h d, ?_⟩
    intro hne
    rw [transactionActivity_forwarder]
    by_cases heq : intent.to_ = intent.transaction.to_
    · simp [heq]
    · simp [heq, hne, Ne.symm heq]
  · exact fun isPretransaction h record hr =>
      activityRecord_shape _ intent isPretransaction h record hr

/-- C2 (as amended) on the sample request: the pretransaction goes to `0xcc`,
the intent target and `intent.transaction.to` are both `0xbb`. -/
theorem hashed_run_adds_two_records_witness :
    sampleIntent.description = some "Create a payment" ∧
    sampleIntent.transaction.to_ ≠ "" ∧
    activityRecords (run sampleHost sampleShown
      [.sign sampleTransaction sampleIntent (some samplePretransaction),
       .transactionHash 0 "0xh0", .transactionHash 1 "0xh1"]).effects =
      [transactionActivity sampleIntent "0xh0" (some "Allow Finance to create a payment"),
       transactionActivity sampleIntent "0xh1" (some "Create a payment")] ∧
    ((transactionActivity sampleIntent "0xh0"
        (some "Allow Finance to create a payment")).forwarderProxyAddress = "" ↔
      sampleIntent.transaction.to_ = sampleIntent.to_) :=
  have h := hashed_run_adds_two_records sampleHost sampleShown sampleTransaction sampleIntent
    samplePretransaction "0xh0" "0xh1" "Create a payment" (by decide)
  ⟨by decide, by decide, h.1.trans (by decide),
    (h.2.2.1 "0xh0" (some "Allow Finance to create a payment")).2.2 (by decide)⟩

/-- C2 (as stated) fails on the sample request: the record of the
pretransaction has an empty `forwarderProxyAddress` although the `to` of the
submitted pretransaction, `0xcc`, differs from `intent.to`, `0xbb`. -/
theorem pretransaction_record_ignores_submitted_target :
    ∃ record,
      (activityRecords (run sampleHost sampleShown
        [.sign sampleTransaction sampleIntent (some samplePretransaction),
         .transactionHash 0 "0xh0", .transactionHash 1 "0xh1"]).effects)[0]? = some record ∧
      sentTransactions (run sampleHost sampleShown
        [.sign sampleTransaction sampleIntent (some samplePretransaction),
         .transactionHash 0 "0xh0", .transactionHash 1 "0xh1"]).effects =
        [.pretransaction samplePretransaction, .transaction sampleTransaction] ∧
      record.transactionHash = "0xh0" ∧
      ¬ (record.forwarderProxyAddress = "" ↔
          (Submitted.pretransaction samplePretransaction).to_ = sampleIntent.to_) :=
  ⟨transactionActivity sampleIntent "0xh0" (some "Allow Finance to create a payment"),
    by decide, by decide, by decide, by decide⟩

/-! ### C3: receipts -/

/-- C3: the receipt handler makes exactly one ledger call, `setActivityFailed`
with the receipt hash when the status is the string `0x0` and
`setActivityConfirmed` with the receipt hash for every other status, so that a
reverted receipt is never confirmed; delivering a receipt to a submission
appends that call to the log and changes nothing else. -/
theorem receipt_makes_one_ledger_call (host : Host)
    (m : Machine) (k : Nat) (receipt : Receipt) (hk : k < m.submissions.length) :
    RECIEPT_ERROR_STATUS = "0x0" ∧
    (receiptHandler receipt).length = 1 ∧
    (receipt.status = .string "0x0" →
      receiptHandler receipt = [.setActivityFailed receipt.transactionHash] ∧
      ∀ h, Effect.setActivityConfirmed h ∉ receiptHandler receipt) ∧
    (receipt.status ≠ .string "0x0" →
      receiptHandler receipt = [.setActivityConfirmed receipt.transactionHash]) ∧
    step host m (.receipt k receipt) =
      { m with effects := m.effects ++ receiptHandler receipt } := by
  refine ⟨rfl, ?_, ?_, ?_, ?_⟩
  · rcases receiptHandler_cases receipt with h | h <;> rw [h] <;> rfl
  · intro hs
    have : receiptHandler receipt = [.setActivityFailed receipt.transactionHash] := by
      simp [receiptHandler, RECIEPT_ERROR_STATUS, hs]
    rw [this]
    exact ⟨rfl, by simp⟩
  · intro hs
    simp [receiptHandler, RECIEPT_ERROR_STATUS, hs]
  · obtain ⟨sub, hsub⟩ : ∃ sub, m.submissions[k]? = some sub :=
      ⟨m.submissions[k], List.getElem?_eq_getElem hk⟩
    exact onReceipt_found k receipt m sub hsub

/-- C3 at a reverted receipt delivered to the only submission of a signing panel. -/
theorem receipt_makes_one_ledger_call_witness :
    0 < (step sampleHost plainShown (.sign plainTransaction plainIntent none)).submissions.length ∧
    receiptHandler sampleRevert = [.setActivityFailed "0xh1"] ∧
    (step sampleHost (step sampleHost plainShown (.sign plainTransaction plainIntent none))
      (.receipt 0 sampleRevert)).effects =
      (step sampleHost plainShown (.sign plainTransaction plainIntent none)).effects ++
        [.setActivityFailed "0xh1"] :=
  have h := receipt_makes_one_ledger_call sampleHost
    (step sampleHost plainShown (.sign plainTransaction plainIntent none)) 0
    sampleRevert (by decide)
  ⟨by decide, (h.2.2.1 rfl).1, by rw [h.2.2.2.2, (h.2.2.1 rfl).1]; rfl⟩

/-! ### C4: a revert after the hash -/

/-- C4: when every submission of a run is hashed and the main transaction is
then mined with the reverted status, the handle of the request is resolved with
the hash of the main transaction at hash time and is never rejected, the status
is `STATUS_SIGNED` with `signError` null before and after the receipt, and the
receipt only appends a `setActivityFailed` call for that hash. -/
theorem revert_after_hash_is_not_an_error (host : Host)
    (m : Machine) (bag : TransactionBag) (transaction : Transaction) (intent : Intent)
    (pre : Option Pretransaction) (preHash h : String) (receipt : Receipt)
    (hbag : m.props.transactionBag = some bag)
    (hstatus : receipt.status = .string "0x0") (hhash : receipt.transactionHash = h) :
    let hashed := run host m
      (.sign transaction intent pre :: hashedEvents m.submissions.length pre preHash h)
    let final := run host m
      ((.sign transaction intent pre :: hashedEvents m.submissions.length pre preHash h) ++
        [.receipt (mainIndex m.submissions.length pre) receipt])
    settlements hashed.effects = settlements m.effects ++ [.resolve bag.ref h] ∧
    hashed.state.status = .STATUS_SIGNED ∧ hashed.state.signError = none ∧
    final = { hashed with effects := hashed.effects ++ [.setActivityFailed h] } ∧
    settlements final.effects = settlements m.effects ++ [.resolve bag.ref h] ∧
    final.state.status = .STATUS_SIGNED ∧ final.state.signError = none := by
  intro hashed final
  obtain ⟨hstate, hsettle, -, hidx⟩ :=
    hashed_run host m bag transaction intent pre preHash h hbag
  have hfinal : final = onReceipt (mainIndex m.submissions.length pre) receipt hashed := by
    simp only [final, run_concat]
    rfl
  have hhandler : receiptHandler receipt = [.setActivityFailed h] := by
    simp [receiptHandler, RECIEPT_ERROR_STATUS, hstatus, hhash]
  obtain ⟨sub, hsub⟩ : ∃ sub, hashed.submissions[mainIndex m.submissions.length pre]? = some sub :=
    ⟨_, List.getElem?_eq_getElem hidx⟩
  rw [onReceipt_found _ _ _ sub hsub, hhandler] at hfinal
  refine ⟨hsettle, by rw [hstate], by rw [hstate], hfinal, ?_, ?_, ?_⟩
  · rw [hfinal]; simp [Effect.isSettlement, hsettle]
  · rw [hfinal]; simp only; rw [hstate]
  · rw [hfinal]; simp only; rw [hstate]

/-- C4 on the sample request, with its pretransaction. -/
theorem revert_after_hash_is_not_an_error_witness :
    sampleShown.props.transactionBag = some (sampleBag 1) ∧
    sampleRevert.status = .string "0x0" ∧ sampleRevert.transactionHash = "0xh1" ∧
    settlements (run sampleHost sampleShown
      ((.sign sampleTransaction sampleIntent (some samplePretransaction) ::
          hashedEvents sampleShown.submissions.length (some samplePretransaction) "0xh0" "0xh1") ++
        [.receipt (mainIndex sampleShown.submissions.length (some samplePretransaction))
          sampleRevert])).effects =
      settlements sampleShown.effects ++ [.resolve (sampleBag 1).ref "0xh1"] :=
  ⟨by decide, by decide, by decide,
    (revert_after_hash_is_not_an_error sampleHost sampleShown (sampleBag 1) sampleTransaction
      sampleIntent (some samplePretransaction) "0xh0" "0xh1" sampleRevert
      (by decide) (by decide) (by decide)).2.2.2.2.1⟩

/-! ### C5: a new request while signing -/

/-- C5 (as amended): a new request arriving while the status is
`STATUS_SIGNING` sets the status to `STATUS_CONFIRMING` at once and replaces
intent, directPath, actionPaths and pretransaction by the values derived from
the new bag, the pending submissions being kept and the stored timer handle
cleared; the previous run is not
cancelled: in whatever state the panel is when an unsettled main submission of a
run started with a bag is hashed, the status becomes `STATUS_SIGNED` and
`signError` null, and when an unsettled submission of such a run fails, the
status becomes `STATUS_ERROR` and `signError` the error; in both cases the
handle of the bag of that run is settled. -/
theorem new_request_replaces_but_does_not_cancel (host : Host)
    (m : Machine) (next : Props) (bag : TransactionBag)
    (hsigning : m.state.status = .STATUS_SIGNING)
    (hnext : next.transactionBag = some bag)
    (hnew : ∀ current, m.props.transactionBag = some current → bag.ref ≠ current.ref) :
    let replaced := step host m (.receiveProps next)
    (replaced.state.status = .STATUS_CONFIRMING ∧
      replaced.state.intent =
        (match bag.transaction with
          | some transaction =>
            .resolved (transactionIntent host.addressesEqual m.props.apps bag.path transaction)
          | none => .undefined) ∧
      replaced.state.directPath = decide (bag.path.length = 1) ∧
      replaced.state.actionPaths = (if bag.path.length ≠ 0 then [bag.path] else []) ∧
      replaced.state.pretransaction =
        (match bag.transaction with
          | some transaction => transaction.pretransaction
          | none => none) ∧
      replaced.state.panelOpened = true ∧
      replaced.state.signError = none ∧
      replaced.props = next ∧
      replaced.submissions = m.submissions ∧
      replaced.effects = m.effects ++ [.clearTimeout m.closeTimer]) ∧
    (∀ (later : Machine) (k : Nat) (sub : Submission) (old : TransactionBag) (h : String),
      later.submissions[k]? = some sub → sub.settled = false →
      sub.isPretransaction = false → sub.transactionBag = some old →
      (step host later (.transactionHash k h)).state =
        { later.state with signError := none, status := .STATUS_SIGNED } ∧
      settlements (step host later (.transactionHash k h)).effects =
        settlements later.effects ++ [.resolve old.ref h]) ∧
    (∀ (later : Machine) (k : Nat) (sub : Submission) (old : TransactionBag)
      (err : Option ProviderError),
      later.submissions[k]? = some sub → sub.settled = false → sub.transactionBag = some old →
      (step host later (.error k err)).state =
        { later.state with signError := err, status := .STATUS_ERROR } ∧
      settlements (step host later (.error k err)).effects =
        settlements later.effects ++ [.reject old.ref err]) := by
  intro replaced
  have hrep : replaced = componentWillReceiveProps host.addressesEqual next m := rfl
  rw [componentWillReceiveProps_new host.addressesEqual m next bag hnext hnew] at hrep
  clear_value replaced
  subst hrep
  refine ⟨⟨?_, ?_, ?_, ?_, ?_, ?_, ?_, ?_, ?_, ?_⟩, ?_, ?_⟩
  · simp [stateFromTransactionBag]
  · simp [stateFromTransactionBag]
  · simp [stateFromTransactionBag]
  · simp [stateFromTransactionBag]
  · simp [stateFromTransactionBag]
  · simp [stateFromTransactionBag]
  · simp [stateFromTransactionBag, INITIAL_STATE]
  · simp
  · simp
  · simp [setState, componentDidUpdate, clearTimeout, stateFromTransactionBag, hsigning]
  · intro later k sub old h hk hs hp hb
    simp only [step]
    rw [onTransactionHash_main _ k h later sub old hk hs hp hb]
    simp [Effect.isSettlement]
  · intro later k sub old err hk hs hb
    simp only [step]
    rw [onError_rejected k err later sub old hk hs hb]
    simp [Effect.isSettlement]

/-- C5 (as amended) on the sample request: the second request arrives while the
first is being signed. -/
theorem new_request_replaces_but_does_not_cancel_witness :
    (step sampleHost plainShown (.sign plainTransaction plainIntent none)).state.status =
      .STATUS_SIGNING ∧
    (plainProps 2).transactionBag = some (plainBag 2) ∧
    (∀ current,
      (step sampleHost plainShown (.sign plainTransaction plainIntent none)).props.transactionBag
        = some current → (plainBag 2).ref ≠ current.ref) ∧
    (step sampleHost (step sampleHost plainShown (.sign plainTransaction plainIntent none))
      (.receiveProps (plainProps 2))).state.status = .STATUS_CONFIRMING :=
  have hnew : ∀ current,
      (step sampleHost plainShown (.sign plainTransaction plainIntent none)).props.transactionBag
        = some current → (plainBag 2).ref ≠ current.ref := by
    intro current hcur
    have : current = plainBag 1 := (Option.some.inj hcur).symm
    subst this
    decide
  ⟨by decide, rfl, hnew,
    (new_request_replaces_but_does_not_cancel sampleHost
      (step sampleHost plainShown (.sign plainTransaction plainIntent none))
      (plainProps 2) (plainBag 2) (by decide) rfl hnew).1.1⟩

/-- C5 (as stated) fails on the sample request: the first request is being
signed when the second arrives; the panel then shows the second request with
status `STATUS_CONFIRMING` and no error, and the later hash of the first run
changes the status to `STATUS_SIGNED`, its later failure instead changes the
status to `STATUS_ERROR` and `signError` to the error. -/
theorem previous_run_outcome_is_not_discarded :
    (run sampleHost plainShown
      [.sign plainTransaction plainIntent none, .receiveProps (plainProps 2)]).state.status =
      .STATUS_CONFIRMING ∧
    (run sampleHost plainShown
      [.sign plainTransaction plainIntent none, .receiveProps (plainProps 2)]).state.signError =
      none ∧
    (run sampleHost plainShown
      [.sign plainTransaction plainIntent none, .receiveProps (plainProps 2)]).props.transactionBag =
      some (plainBag 2) ∧
    (run sampleHost plainShown
      [.sign plainTransaction plainIntent none, .receiveProps (plainProps 2),
       .transactionHash 0 "0xh1"]).state.status = .STATUS_SIGNED ∧
    (run sampleHost plainShown
      [.sign plainTransaction plainIntent none, .receiveProps (plainProps 2),
       .error 0 (some sampleError)]).state.status = .STATUS_ERROR ∧
    (run sampleHost plainShown
      [.sign plainTransaction plainIntent none, .receiveProps (plainProps 2),
       .error 0 (some sampleError)]).state.signError = some sampleError := by
  decide

/-! ### C6: the auto-close timer -/

/-- C6 evaluated on overlapping runs: both runs reach `STATUS_SIGNED` and each
schedules a close after 3000 ms, the second `startClosing` overwriting the
handle of the first; the arrival of the third request changes the status away
from `STATUS_SIGNED` and clears timer 1 only; the third request reaches
`STATUS_SIGNED` at time 1500 and at time 3000 timer 0, scheduled for the first
run, closes the panel, while timer 2, scheduled for the state shown, is still
pending. -/
theorem stale_timer_closes_later_signed_panel :
    (run sampleHost (mount { apps := sampleApps, transactionBag := none })
      overlappingRuns).state.status = .STATUS_SIGNED ∧
    (run sampleHost (mount { apps := sampleApps, transactionBag := none })
      overlappingRuns).timers = [(0, 3000), (1, 4000)] ∧
    (run sampleHost (mount { apps := sampleApps, transactionBag := none })
      overlappingRuns).closeTimer = some 1 ∧
    (run sampleHost (mount { apps := sampleApps, transactionBag := none })
      (overlappingRuns ++ [.receiveProps (plainProps 3)])).state.status = .STATUS_CONFIRMING ∧
    (run sampleHost (mount { apps := sampleApps, transactionBag := none })
      (overlappingRuns ++ [.receiveProps (plainProps 3)])).timers = [(0, 3000)] ∧
    (run sampleHost (mount { apps := sampleApps, transactionBag := none })
      (overlappingRuns ++ thirdRequest)).state.status = .STATUS_SIGNED ∧
    (run sampleHost (mount { apps := sampleApps, transactionBag := none })
      (overlappingRuns ++ thirdRequest)).state.panelOpened = true ∧
    (run sampleHost (mount { apps := sampleApps, transactionBag := none })
      (overlappingRuns ++ thirdRequest)).now = 1500 ∧
    (run sampleHost (mount { apps := sampleApps, transactionBag := none })
      (overlappingRuns ++ thirdRequest)).timers = [(0, 3000), (2, 4500)] ∧
    (run sampleHost (mount { apps := sampleApps, transactionBag := none })
      (overlappingRuns ++ thirdRequest ++ [.elapse 1500])).now = 3000 ∧
    (run sampleHost (mount { apps := sampleApps, transactionBag := none })
      (overlappingRuns ++ thirdRequest ++ [.elapse 1500])).state.panelOpened = false ∧
    (run sampleHost (mount { apps := sampleApps, transactionBag := none })
      (overlappingRuns ++ thirdRequest ++ [.elapse 1500])).timers = [(2, 4500)] := by
  decide

/-! ### C7: settling the handle of a request -/

/-- C7 (as amended): for every bag and every sequence of events of a mounted
panel, the number of `resolve` and `reject` calls on the bag plus the number of
its `handleSign` runs that still wait for the provider equals the number of
`handleSign` calls made while the bag was the current request; hence a request
confirmed at most once is settled at most once, a request that is never
confirmed is never settled, and a request confirmed once is settled exactly
once as soon as none of its runs waits any more. The settling call is `resolve`
with the hash of the main transaction when the main submission is hashed and
`reject` with the error when a submission fails. -/
theorem handle_settled_once_per_completed_run (host : Host)
    (props : Props) (bag : Nat) (events : List Event) :
    let final := run host (mount props) events
    settleCount bag final.effects + openRuns bag final.submissions =
      signCount host bag (mount props) events ∧
    (signCount host bag (mount props) events ≤ 1 → settleCount bag final.effects ≤ 1) ∧
    (signCount host bag (mount props) events = 0 → settleCount bag final.effects = 0) ∧
    (signCount host bag (mount props) events = 1 →
      openRuns bag final.submissions = 0 → settleCount bag final.effects = 1) ∧
    (∀ (k : Nat) (sub : Submission) (b : TransactionBag) (h : String),
      final.submissions[k]? = some sub → sub.settled = false → sub.isPretransaction = false →
      sub.transactionBag = some b →
      settlements (step host final (.transactionHash k h)).effects =
        settlements final.effects ++ [.resolve b.ref h]) ∧
    (∀ (k : Nat) (sub : Submission) (b : TransactionBag) (err : Option ProviderError),
      final.submissions[k]? = some sub → sub.settled = false → sub.transactionBag = some b →
      settlements (step host final (.error k err)).effects =
        settlements final.effects ++ [.reject b.ref err]) := by
  intro final
  have hbalance : settleCount bag final.effects + openRuns bag final.submissions =
      signCount host bag (mount props) events := by
    have := settle_run host bag (mount props) events
    simpa [mount, settleCount, openRuns] using this
  refine ⟨hbalance, ?_, ?_, ?_, ?_, ?_⟩
  · intro h; omega
  · intro h; omega
  · intro h1 h2; omega
  · intro k sub b h hk hs hp hb
    simp only [step]
    rw [onTransactionHash_main _ k h final sub b hk hs hp hb]
    simp [Effect.isSettlement]
  · intro k sub b err hk hs hb
    simp only [step]
    rw [onError_rejected k err final sub b hk hs hb]
    simp [Effect.isSettlement]

/-- C7 (as amended) on the sample request, confirmed once and hashed. -/
theorem handle_settled_once_per_completed_run_witness :
    signCount sampleHost 1 (mount (plainProps 0))
      [.receiveProps (plainProps 1), .sign plainTransaction plainIntent none,
        .transactionHash 0 "0xh1", .elapse 3000, .transitionEnd false] = 1 ∧
    openRuns 1 (run sampleHost (mount (plainProps 0))
      [.receiveProps (plainProps 1), .sign plainTransaction plainIntent none,
        .transactionHash 0 "0xh1", .elapse 3000, .transitionEnd false]).submissions = 0 ∧
    settleCount 1 (run sampleHost (mount (plainProps 0))
      [.receiveProps (plainProps 1), .sign plainTransaction plainIntent none,
        .transactionHash 0 "0xh1", .elapse 3000, .transitionEnd false]).effects = 1 :=
  ⟨by decide, by decide,
    (handle_settled_once_per_completed_run sampleHost (plainProps 0) 1
      [.receiveProps (plainProps 1), .sign plainTransaction plainIntent none,
        .transactionHash 0 "0xh1", .elapse 3000, .transitionEnd false]).2.2.2.1
      (by decide) (by decide)⟩

/-- C7 (as stated) fails on the sample request: it is shown, the panel is
closed without confirmation and the close transition ends; the handle of the
request has been neither resolved nor rejected. -/
theorem closed_request_is_never_settled :
    (run sampleHost (mount { apps := sampleApps, transactionBag := none })
      [.receiveProps (plainProps 1), .close, .transitionEnd false]).state = INITIAL_STATE ∧
    settlements (run sampleHost (mount { apps := sampleApps, transactionBag := none })
      [.receiveProps (plainProps 1), .close, .transitionEnd false]).effects = [] ∧
    settleCount 1 (run sampleHost (mount { apps := sampleApps, transactionBag := none })
      [.receiveProps (plainProps 1), .close, .transitionEnd false]).effects ≠ 1 := by
  decide

/-! ### C8: intent resolution -/

/-- C8: for a non-empty path, `transactionIntent` keeps the given transaction;
with more than one node the other fields are exactly those of the last node,
whatever the earlier nodes and the registry are; with exactly one node `to` is
`transaction.to` and `name` is the name of the registered app whose proxy
address equals `transaction.to` (the first such app), or the empty string when
no registered app matches. -/
theorem transactionIntent_resolves (addressesEqual : String → String → Bool)
    (apps : List App) (path : List Node) (transaction : Transaction) (hpath : path ≠ []) :
    let intent := transactionIntent addressesEqual apps path transaction
    intent.transaction = transaction ∧
    (1 < path.length →
      intent =
        { annotatedDescription := (path.getLast hpath).annotatedDescription
          description := (path.getLast hpath).description
          name := (path.getLast hpath).name
          to_ := (path.getLast hpath).to_
          transaction := transaction } ∧
      ∀ (otherApps : List App) (earlier : List Node), earlier ≠ [] →
        transactionIntent addressesEqual otherApps (earlier ++ [path.getLast hpath]) transaction
          = intent) ∧
    (path.length = 1 →
      intent.to_ = transaction.to_ ∧
      ((∀ app ∈ apps, addressesEqual app.proxyAddress transaction.to_ = false) →
        intent.name = "") ∧
      (∀ app ∈ apps, addressesEqual app.proxyAddress transaction.to_ = true →
        ∃ found ∈ apps, addressesEqual found.proxyAddress transaction.to_ = true ∧
          apps.find? (fun a => addressesEqual a.proxyAddress transaction.to_) = some found ∧
          intent.name = found.name) ∧
      (∀ app ∈ apps, addressesEqual app.proxyAddress transaction.to_ = true →
        (∀ other ∈ apps, addressesEqual other.proxyAddress transaction.to_ = true → other = app) →
        intent.name = app.name)) := by
  intro intent
  have hfound : ∀ app ∈ apps, addressesEqual app.proxyAddress transaction.to_ = true →
      ∃ found ∈ apps, addressesEqual found.proxyAddress transaction.to_ = true ∧
        apps.find? (fun a => addressesEqual a.proxyAddress transaction.to_) = some found := by
    intro app happ hmatch
    cases hf : apps.find? (fun a => addressesEqual a.proxyAddress transaction.to_) with
    | none =>
      rw [List.find?_eq_none] at hf
      exact absurd hmatch (by simpa using hf app happ)
    | some found =>
      exact ⟨found, List.mem_of_find?_eq_some hf, by simpa using List.find?_some hf, rfl⟩
  refine ⟨?_, ?_, ?_⟩
  · by_cases h : 1 < path.length
    · simp only [intent, transactionIntent_forwarded addressesEqual apps path transaction hpath h]
    · simp only [intent, transactionIntent_direct addressesEqual apps path transaction h]
  · intro h
    refine ⟨transactionIntent_forwarded addressesEqual apps path transaction hpath h, ?_⟩
    intro otherApps earlier hearlier
    have hlen : 1 < (earlier ++ [path.getLast hpath]).length := by
      have := List.length_pos.mpr hearlier
      simp only [List.length_append, List.length_singleton]
      omega
    rw [transactionIntent_forwarded addressesEqual otherApps _ transaction (by simp) hlen]
    simp only [intent, transactionIntent_forwarded addressesEqual apps path transaction hpath h,
      List.getLast_append_singleton]
  · intro h
    have hnot : ¬ 1 < path.length := by omega
    have hi := transactionIntent_direct addressesEqual apps path transaction hnot
    refine ⟨by simp only [intent, hi], ?_, ?_, ?_⟩
    · intro hnone
      have hf : apps.find? (fun a => addressesEqual a.proxyAddress transaction.to_) = none := by
        rw [List.find?_eq_none]
        intro a ha
        simp [hnone a ha]
      simp only [intent, hi, hf]
    · intro app happ hmatch
      obtain ⟨found, hmem, hm, hf⟩ := hfound app happ hmatch
      exact ⟨found, hmem, hm, hf, by simp only [intent, hi, hf]⟩
    · intro app happ hmatch huniq
      obtain ⟨found, hmem, hm, hf⟩ := hfound app happ hmatch
      have := huniq found hmem hm
      subst this
      simp only [intent, hi, hf]

/-- C8 on the sample request: a one-node path whose transaction goes to the
Finance app. -/
theorem transactionIntent_resolves_witness :
    samplePath ≠ [] ∧ samplePath.length = 1 ∧
    (transactionIntent sameAddress sampleApps samplePath sampleTransaction).to_ = "0xbb" ∧
    (transactionIntent sameAddress sampleApps samplePath sampleTransaction).name = "Finance" :=
  have h := (transactionIntent_resolves sameAddress sampleApps samplePath sampleTransaction
    (by decide)).2.2 (by decide)
  ⟨by decide, by decide, h.1,
    h.2.2.2 { name := "Finance", proxyAddress := "0xbb" } (by decide) (by decide) (by decide)⟩

/-! ### C9: closing the panel -/

/-- C9: a close request only sets the opened flag to false (intent, directPath,
actionPaths, pretransaction, status and signError are kept) and is idempotent;
the transition-end signal resets the state to `INITIAL_STATE` when `opened` is
false and leaves it unchanged when `opened` is true; and in every state the
panel can reach, the only event that turns a state different from
`INITIAL_STATE` into `INITIAL_STATE` is the transition-end signal with
`opened = false`. -/
theorem close_keeps_state_until_transition_end (host : Host)
    (m : Machine) (props : Props) (events : List Event) (e : Event) :
    (step host m .close = { m with state := handleSignerClose m.state } ∧
      handleSignerClose m.state = { m.state with panelOpened := false } ∧
      (handleSignerClose m.state).panelOpened = false ∧
      (handleSignerClose m.state).intent = m.state.intent ∧
      (handleSignerClose m.state).directPath = m.state.directPath ∧
      (handleSignerClose m.state).actionPaths = m.state.actionPaths ∧
      (handleSignerClose m.state).pretransaction = m.state.pretransaction ∧
      (handleSignerClose m.state).status = m.state.status ∧
      (handleSignerClose m.state).signError = m.state.signError) ∧
    step host (step host m .close) .close = step host m .close ∧
    (step host m (.transitionEnd false)).state = INITIAL_STATE ∧
    step host m (.transitionEnd true) = m ∧
    ((step host (run host (mount props) events) e).state = INITIAL_STATE →
      (run host (mount props) events).state = INITIAL_STATE ∨
        e = .transitionEnd false) := by
  have hclose : ∀ m : Machine,
      step host m .close = { m with state := handleSignerClose m.state } :=
    fun m => setState_same_status handleSignerClose m rfl
  refine ⟨⟨hclose m, rfl, rfl, rfl, rfl, rfl, rfl, rfl, rfl⟩, ?_, ?_, ?_, ?_⟩
  · rw [hclose (step host m .close), hclose m]
    rfl
  · simp [step, handleSignerTransitionEnd]
  · exact setState_same_status (handleSignerTransitionEnd true) m rfl
  · intro hreset
    have hinv := openedWithIntent_run host props events
    generalize run host (mount props) events = r at hreset hinv
    rcases step_state_cases host r e with
      hs | ⟨bag, hs⟩ | hs | hs | ⟨err, hs⟩ | hs | ⟨-, he⟩
    · exact Or.inl (hs ▸ hreset)
    · rw [hs] at hreset
      have := congrArg PanelState.panelOpened hreset
      simp [stateFromTransactionBag, INITIAL_STATE] at this
    · rw [hs] at hreset
      have := congrArg PanelState.status hreset
      simp [INITIAL_STATE] at this
    · rw [hs] at hreset
      have := congrArg PanelState.status hreset
      simp [INITIAL_STATE] at this
    · rw [hs] at hreset
      have := congrArg PanelState.status hreset
      simp [INITIAL_STATE] at this
    · rw [hs] at hreset
      left
      by_cases ho : r.state.panelOpened = true
      · have hi := hinv ho
        have := congrArg PanelState.intent hreset
        simp [handleSignerClose, INITIAL_STATE] at this
        exact absurd this hi
      · have ho2 : r.state.panelOpened = false := by simpa using ho
        rw [← hreset]
        simp [handleSignerClose, ← ho2]
    · exact Or.inr he

/-- C9 on a panel that was given a request: the transition-end signal with
`opened = false` resets the state. -/
theorem close_keeps_state_until_transition_end_witness :
    (step sampleHost (run sampleHost (mount (sampleProps 1)) [.receiveProps (sampleProps 2)])
        (.transitionEnd false)).state = INITIAL_STATE ∧
    ((run sampleHost (mount (sampleProps 1)) [.receiveProps (sampleProps 2)]).state =
        INITIAL_STATE ∨ Event.transitionEnd false = .transitionEnd false) :=
  ⟨by decide,
    (close_keeps_state_until_transition_end sampleHost sampleShown (sampleProps 1)
      [.receiveProps (sampleProps 2)] (.transitionEnd false)).2.2.2.2 (by decide)⟩

/-! ### C10: status and error -/

/-- C10: in every state reachable from the mounted panel, status
`STATUS_SIGNED` implies that `signError` is null and status `STATUS_ERROR`
implies that `signError` is the error of the most recent `reject` call; a
successful completion clears an error stored by an earlier run. -/
theorem signed_has_no_error_and_error_carries_it (host : Host)
    (props : Props) (events : List Event) :
    let m := run host (mount props) events
    (m.state.status = .STATUS_SIGNED → m.state.signError = none) ∧
    (m.state.status = .STATUS_ERROR →
      ∃ bag, lastRejection m.effects = some (bag, m.state.signError)) ∧
    (∀ (k : Nat) (sub : Submission) (bag : TransactionBag) (h : String),
      m.submissions[k]? = some sub → sub.settled = false → sub.isPretransaction = false →
      sub.transactionBag = some bag →
      (step host m (.transactionHash k h)).state.status = .STATUS_SIGNED ∧
      (step host m (.transactionHash k h)).state.signError = none) := by
  intro m
  refine ⟨(status_invariant host props events).1,
    (status_invariant host props events).2, ?_⟩
  intro k sub bag h hk hs hp hb
  simp only [step]
  rw [onTransactionHash_main _ k h m sub bag hk hs hp hb]
  exact ⟨rfl, rfl⟩

/-- C10 on the sample request: the wallet rejects the run of the second
request shown by a panel mounted with the first. -/
theorem signed_has_no_error_and_error_carries_it_witness :
    (run sampleHost (mount (plainProps 1))
      [.receiveProps (plainProps 2), .sign plainTransaction plainIntent none,
        .error 0 (some sampleError)]).state.status = .STATUS_ERROR ∧
    (∃ bag, lastRejection (run sampleHost (mount (plainProps 1))
      [.receiveProps (plainProps 2), .sign plainTransaction plainIntent none,
        .error 0 (some sampleError)]).effects = some (bag, some sampleError)) :=
  ⟨by decide,
    (signed_has_no_error_and_error_carries_it sampleHost (plainProps 1)
      [.receiveProps (plainProps 2), .sign plainTransaction plainIntent none,
        .error 0 (some sampleError)]).2.1 (by decide)⟩

end SignerPanel
